import Mathlib

/-!
Verification development for the astobj2 subsystem (main/astobj2.c):
a reference-counted object runtime with hash-bucketed containers.

The embedding is sequential: the C code's locking, hand-over-hand node
reference juggling and tombstoning exist only to survive concurrent
readers, so in a single-threaded shallow embedding a node unlinked by a
traversal is removed at the point where the walker drops its last
reference to it, i.e. immediately after the unlink action.  Machine
integers (`int` refcounts, hash values) are modelled as `Int`; C's
truncating `%` on int is `Int.tmod`.

Object layout: the C `__priv_data` header (ref_counter, destructor_fn,
options, magic) collapses to the fields of `PObj`; `alive = true` models
`magic == AO2_MAGIC`, and destruction (which memsets the header, zeroing
the magic) sets `alive := false` and `ref := 0`.  `dtorRuns` counts
destructor invocations.  `key` stands for the user payload contents that
the embedder-supplied hash/sort/cmp functions read.
-/

namespace AstObj2

/-- CMP_MATCH bit of a comparison callback result. -/
def CMP_MATCH : Nat := 1

/-- CMP_STOP bit of a comparison callback result. -/
def CMP_STOP : Nat := 2

/-- A reference-counted payload object (user object allocated by
`internal_ao2_alloc`).  `alive` models the AO2_MAGIC check; `dtorRuns`
counts how many times `destructor_fn` has been invoked. -/
structure PObj where
  key : Int
  ref : Int
  hasDtor : Bool
  alive : Bool
  dtorRuns : Nat
deriving Repr, DecidableEq

/-- The heap of payload objects, addressed by object id. -/
abbrev Heap := Nat → Option PObj

/-- Heap update. -/
def hset (h : Heap) (i : Nat) (o : PObj) : Heap :=
  fun j => if j = i then some o else h j

/-- The state `internal_ao2_ref` leaves an object in on the destroy path:
run the destructor (if any), then memset the header and first payload
word, which zeroes the magic and the reference counter. -/
def destroyedPObj (o : PObj) : PObj :=
  { key := o.key
    ref := 0
    hasDtor := o.hasDtor
    alive := false
    dtorRuns := o.dtorRuns + (if o.hasDtor then 1 else 0) }

/-- `internal_ao2_ref(user_data, delta)`.  Returns the previous count and
the updated heap.  A missing or destroyed object is a bad-magic pointer:
`INTERNAL_OBJ` returns NULL and the function returns -1.  `delta = 0`
reads the counter.  Otherwise the counter is adjusted; a positive result
means the object lives; a result `: 0` (the C logs the negative case as
an invalid refcount and then falls through) destroys the object. -/
def internal_ao2_ref (h : Heap) (oid : Nat) (delta : Int) : Int × Heap :=
  match h oid with
  | none => (-1, h)
  | some obj =>
    if obj.alive = false then (-1, h)
    else if delta = 0 then (obj.ref, h)
    else
      let ret := obj.ref
      let current := ret + delta
      if 0 < current then (ret, hset h oid { obj with ref := current })
      else (ret, hset h oid (destroyedPObj obj))

/-- A fresh object as `internal_ao2_alloc` initializes it:
`ref_counter = 1`, destructor stored, magic written. -/
def freshPObj (key : Int) (hasDtor : Bool) : PObj :=
  { key := key, ref := 1, hasDtor := hasDtor, alive := true, dtorRuns := 0 }

/-- Run a sequence of refcount deltas against one object, as a caller
issuing bump/release calls would. -/
def runOps (h : Heap) (oid : Nat) (ops : List Int) : Heap :=
  ops.foldl (fun h d => (internal_ao2_ref h oid d).2) h

/-- Sum of a delta sequence (`n` bumps of +1 and `m` releases of -1 sum
to `n - m`). -/
def bal (ops : List Int) : Int := ops.sum

/-- Number of bumps (+1 deltas) in an operation sequence. -/
def bumps (ops : List Int) : Nat := ops.count 1

/-- Number of releases (-1 deltas) in an operation sequence. -/
def rels (ops : List Int) : Nat := ops.count (-1)

/-! ### Containers

A `hash_bucket_node` ties one payload into one bucket.  Nodes are
themselves refcounted ao2 objects; sequentially, the walker's
hand-over-hand references mean an unlinked node is gone by the time the
surrounding operation returns, so the model needs only the held payload
id (`none` would be a tombstone left by an in-flight iterator; the
claims below never create one). -/

structure Node where
  obj : Option Nat
deriving Repr, DecidableEq

/-- One hash bucket: the list of nodes it holds, head first. -/
abbrev Bucket := List Node

/-- Duplicate policy bits (`AO2_CONTAINER_ALLOC_OPT_DUPS_MASK`). -/
inductive DupOpt where
  | allow
  | reject
  | objReject
  | replace
deriving Repr, DecidableEq

/-- Comparison callbacks (`ao2_callback_fn`) used by the claims.  They
are deep-embedded because `dup_obj_cb` mutates the world (it links the
visited object into another container). -/
inductive CBCode where
  /-- `cb_true`: matches everything (used when the callback is NULL). -/
  | cbTrue
  /-- `ao2_match_by_addr`: CMP_MATCH|CMP_STOP when the payload is the
  argument object. -/
  | matchByAddr
  /-- A typical embedder match function: CMP_MATCH when the payload key
  equals the argument key. -/
  | keyEq
  /-- `dup_obj_cb`: link the payload into the argument container;
  0 on success, CMP_MATCH|CMP_STOP on link failure. -/
  | dupObj
deriving Repr, DecidableEq

/-- The `void *arg` of a traversal: nothing, a search key, an object
pointer, or (for `dup_obj_cb`) a destination container. -/
inductive CArg where
  | noArg
  | byKey (k : Int)
  | byObj (o : Nat)
  | byCont (c : Nat)
deriving Repr, DecidableEq

/-- The search_flags bits used by the container operations.  Locking
flags (OBJ_NOLOCK) have no sequential content and are dropped.
`contWrap` is OBJ_CONTINUE; `descending` covers OBJ_ORDER_DESCENDING
(and POST, which selects the same direction). -/
structure SFlags where
  unlink : Bool
  nodata : Bool
  multiple : Bool
  pointer : Bool
  key : Bool
  contWrap : Bool
  descending : Bool
deriving Repr, DecidableEq

/-- Default flags (all bits clear). -/
def SFlags.none : SFlags := ⟨false, false, false, false, false, false, false⟩

/-- `OBJ_UNLINK | OBJ_NODATA | OBJ_MULTIPLE`, the flag word
`container_destruct` and the `ao2_container_dup` rollback use. -/
def flagsUnlinkAll : SFlags := ⟨true, true, true, false, false, false, false⟩

/-- `struct ao2_container_hash` together with the generic
`struct ao2_container` fields it embeds.  The container is itself an ao2
object: `ref`/`alive` model its own header.  `hashFn` is the stored
(post-init, never null) hash function; `sortFn`/`cmpFn` are the optional
sort and lookup-match functions. -/
structure HashCont where
  insertBegin : Bool
  dups : DupOpt
  sortFn : Option (Int → Int → Int)
  cmpFn : Option CBCode
  hashFn : Int → Int
  n_buckets : Nat
  buckets : List Bucket
  elements : Int
  destroying : Bool
  ref : Int
  alive : Bool

/-- The world: payload heap, container store, and the outcome stream of
the allocator (`ast_calloc`), head first; an exhausted stream means
every further allocation succeeds. -/
structure World where
  heap : Heap
  nextObj : Nat
  conts : Nat → Option HashCont
  nextCont : Nat
  allocs : List Bool

/-- Pop the next allocation outcome. -/
def popAlloc : List Bool → Bool × List Bool
  | [] => (true, [])
  | b :: rest => (b, rest)

/-- Container store update. -/
def setCont (s : Nat → Option HashCont) (i : Nat) (c : HashCont) :
    Nat → Option HashCont :=
  fun j => if j = i then some c else s j

/-- Apply `f` to the container stored at `cid` (no-op when absent). -/
def updateCont (w : World) (cid : Nat) (f : HashCont → HashCont) : World :=
  match w.conts cid with
  | none => w
  | some c => { w with conts := setCont w.conts cid (f c) }

/-- The key the embedder's functions read out of a payload. -/
def keyOfW (w : World) (oid : Nat) : Int :=
  match w.heap oid with
  | some o => o.key
  | none => 0

/-- `INTERNAL_OBJ(user_data)` succeeds: the payload exists and its magic
is intact. -/
def validObj (w : World) (oid : Nat) : Bool :=
  match w.heap oid with
  | some o => o.alive
  | none => false

/-- The container pointer passes the sanity checks (`INTERNAL_OBJ(c)` and
a live vtable). -/
def validCont (w : World) (cid : Nat) : Bool :=
  match w.conts cid with
  | some c => c.alive
  | none => false

/-- `__ao2_alloc` of a user payload: consumes one allocator outcome and,
on success, installs a fresh object at the next id. -/
def ao2_alloc (w : World) (key : Int) (hasDtor : Bool) : Option Nat × World :=
  let p := popAlloc w.allocs
  if p.1 then
    (some w.nextObj,
     { w with heap := hset w.heap w.nextObj (freshPObj key hasDtor)
              nextObj := w.nextObj + 1
              allocs := p.2 })
  else (none, { w with allocs := p.2 })

/-- `hash_zero`: the always-zero hash function installed when the caller
supplies none. -/
def hash_zero : Int → Int := fun _ => 0

/-- `__ao2_container_alloc_hash`: no hash function forces one bucket;
the stored hash function is the supplied one or `hash_zero`. -/
def container_alloc_hash (w : World) (insertBegin : Bool) (dups : DupOpt)
    (n_buckets : Nat) (hashFn : Option (Int → Int))
    (sortFn : Option (Int → Int → Int)) (cmpFn : Option CBCode) :
    Option Nat × World :=
  let num_buckets := if hashFn.isSome then n_buckets else 1
  let p := popAlloc w.allocs
  if p.1 then
    (some w.nextCont,
     { w with
        conts := setCont w.conts w.nextCont
          { insertBegin := insertBegin
            dups := dups
            sortFn := sortFn
            cmpFn := cmpFn
            hashFn := hashFn.getD hash_zero
            n_buckets := num_buckets
            buckets := List.replicate num_buckets []
            elements := 0
            destroying := false
            ref := 1
            alive := true }
        nextCont := w.nextCont + 1
        allocs := p.2 })
  else (none, { w with allocs := p.2 })

/-- `__ao2_container_alloc_list`: a hash container with one bucket and
no hash function. -/
def container_alloc_list (w : World) (insertBegin : Bool) (dups : DupOpt)
    (sortFn : Option (Int → Int → Int)) (cmpFn : Option CBCode) :
    Option Nat × World :=
  container_alloc_hash w insertBegin dups 1 Option.none sortFn cmpFn

/-- The key a node's held payload presents to the sort function. -/
def nodeKey (h : Heap) (n : Node) : Int :=
  match n.obj with
  | some oid => (match h oid with | some o => o.key | none => 0)
  | none => 0

/-- Result of `hash_ao2_link_insert`.  On `replaced` the bucket node and
the new node have swapped payloads, and `dropped` is the new node, now
holding the old payload (its destruction releases that payload). -/
inductive InsertRes where
  | inserted (b : Bucket)
  | replaced (b : Bucket) (dropped : Node)
  | rejected
deriving Repr, DecidableEq

/-- The forward insert walk (append end, i.e. no `INSERT_BEGIN`) in the
SPEC's reading, where the sort function compares the held payloads' keys
(`sort_fn(cur->obj, node->obj, OBJ_POINTER)`): walk the bucket;
`cmp < 0` keeps walking; `cmp > 0` inserts before the current node;
equality applies the duplicate policy; an exhausted walk appends at the
tail.  The source diverges here: its walk hands `sort_fn` the two
`hash_bucket_node` pointers themselves, not the payloads — that walk is
embedded separately as `insertFwdSrc`. -/
def insertFwd (h : Heap) (dups : DupOpt) (sf : Int → Int → Int) (node : Node) :
    Bucket → InsertRes
  | [] => InsertRes.inserted [node]
  | cur :: rest =>
    let deeper : InsertRes :=
      match insertFwd h dups sf node rest with
      | .inserted b => .inserted (cur :: b)
      | .replaced b d => .replaced (cur :: b) d
      | .rejected => .rejected
    let cmp := sf (nodeKey h cur) (nodeKey h node)
    if cmp < 0 then deeper
    else if 0 < cmp then .inserted (node :: cur :: rest)
    else
      match dups with
      | .allow => deeper
      | .reject => .rejected
      | .objReject => if cur.obj = node.obj then .rejected else deeper
      | .replace => .replaced ({ obj := node.obj } :: rest) { obj := cur.obj }

/-- The backward insert walk (`INSERT_BEGIN`) in the SPEC's payload-key
reading, written on the reversed bucket: `cmp > 0` keeps walking
(towards the head); `cmp < 0` inserts after the current node (before it
in the reversed view); equality applies the duplicate policy; an
exhausted walk inserts at the head (the tail of the reversed view).
The source's walk at astobj2.c:1565 makes the same node-pointer call as
the forward one (see `insertFwdSrc`). -/
def insertRevAux (h : Heap) (dups : DupOpt) (sf : Int → Int → Int) (node : Node) :
    Bucket → InsertRes
  | [] => InsertRes.inserted [node]
  | cur :: rest =>
    let deeper : InsertRes :=
      match insertRevAux h dups sf node rest with
      | .inserted b => .inserted (cur :: b)
      | .replaced b d => .replaced (cur :: b) d
      | .rejected => .rejected
    let cmp := sf (nodeKey h cur) (nodeKey h node)
    if 0 < cmp then deeper
    else if cmp < 0 then .inserted (node :: cur :: rest)
    else
      match dups with
      | .allow => deeper
      | .reject => .rejected
      | .objReject => if cur.obj = node.obj then .rejected else deeper
      | .replace => .replaced ({ obj := node.obj } :: rest) { obj := cur.obj }

/-- A bucket node as the source allocates it: its own address (`nid`)
plus the held payload. -/
structure SNode where
  nid : Nat
  obj : Option Nat
deriving Repr, DecidableEq

/-- What a sort-callback invocation actually receives in this source: a
bucket node's address (the insert walk passes one on both sides, the
traversal prune on the left), a payload's address (an OBJ_POINTER
search argument), or a search key (OBJ_KEY). -/
inductive SortArg where
  | nodeArg (nid : Nat)
  | objArg (oid : Nat)
  | keyArg (k : Int)
deriving Repr, DecidableEq

/-- Result of the source-faithful sorted insert walk. -/
inductive SInsertRes where
  | inserted (b : List SNode)
  | replaced (b : List SNode) (dropped : SNode)
  | rejected
deriving Repr, DecidableEq

/-- The forward insert walk exactly as the source performs it
(astobj2.c:1595-1626): `cmp = sort_fn(cur, node, OBJ_POINTER)` hands the
callback the two `hash_bucket_node` pointers, so the walk never reads a
payload key.  `cmp < 0` keeps walking; `cmp > 0` inserts before the
current node; equality applies the duplicate policy, with REPLACE
swapping the held payloads of `cur` and `node`
(`SWAP(cur->obj, node->obj)`). -/
def insertFwdSrc (sf : SortArg → SortArg → Int) (dups : DupOpt)
    (node : SNode) : List SNode → SInsertRes
  | [] => SInsertRes.inserted [node]
  | cur :: rest =>
    let deeper : SInsertRes :=
      match insertFwdSrc sf dups node rest with
      | .inserted b => .inserted (cur :: b)
      | .replaced b d => .replaced (cur :: b) d
      | .rejected => .rejected
    let cmp := sf (SortArg.nodeArg cur.nid) (SortArg.nodeArg node.nid)
    if cmp < 0 then deeper
    else if 0 < cmp then .inserted (node :: cur :: rest)
    else
      match dups with
      | .allow => deeper
      | .reject => .rejected
      | .objReject => if cur.obj = node.obj then .rejected else deeper
      | .replace => .replaced ({ cur with obj := node.obj } :: rest)
          { node with obj := cur.obj }

/-- `hash_ao2_link_insert`: attach the node to the bucket according to
insertion order and sort policy.  Without a sort function the node goes
straight to the head or tail.  The sorted branches use the spec-reading
walks (`insertFwd`/`insertRevAux`, payload-key comparison); the source's
sorted walks actually compare the bucket-node pointers
(astobj2.c:1565/1597, embedded as `insertFwdSrc`) — a divergence no
theorem proved through this definition exercises, since each fixes
`sortFn = none`. -/
def hash_ao2_link_insert (h : Heap) (insertBegin : Bool) (dups : DupOpt)
    (sortFn : Option (Int → Int → Int)) (bucket : Bucket) (node : Node) :
    InsertRes :=
  if insertBegin then
    match sortFn with
    | some sf =>
      match insertRevAux h dups sf node bucket.reverse with
      | .inserted b => .inserted b.reverse
      | .replaced b d => .replaced b.reverse d
      | .rejected => .rejected
    | none => .inserted (node :: bucket)
  else
    match sortFn with
    | some sf => insertFwd h dups sf node bucket
    | none => .inserted (bucket ++ [node])

/-- The bucket `hash_ao2_link` computes: `abs(hash_fn(obj)) % n_buckets`. -/
def linkBucketIndex (self : HashCont) (k : Int) : Nat :=
  (self.hashFn k).natAbs % self.n_buckets

/-- `hash_ao2_link`: allocate a node, fold the hash, take a payload
reference for the node, insert per policy.  On insertion the element
count rises and 1 is returned; on replacement the dropped node's
destruction releases the old payload and 1 is returned; on rejection the
node's destruction releases the just-taken new payload reference and 0
is returned. -/
def hash_ao2_link (w : World) (cid : Nat) (oid : Nat) : Int × World :=
  match w.conts cid with
  | none => (0, w)
  | some self =>
    let p := popAlloc w.allocs
    let w1 := { w with allocs := p.2 }
    if p.1 = false then (0, w1)
    else
      let i := linkBucketIndex self (keyOfW w1 oid)
      let heap1 := (internal_ao2_ref w1.heap oid 1).2
      let node : Node := ⟨some oid⟩
      let bucket := (self.buckets.get? i).getD []
      match hash_ao2_link_insert heap1 self.insertBegin self.dups self.sortFn
          bucket node with
      | .inserted b =>
        (1, { w1 with
                heap := heap1
                conts := setCont w1.conts cid
                  { self with buckets := self.buckets.set i b
                              elements := self.elements + 1 } })
      | .replaced b dropped =>
        let heap2 := match dropped.obj with
          | some old => (internal_ao2_ref heap1 old (-1)).2
          | none => heap1
        (1, { w1 with
                heap := heap2
                conts := setCont w1.conts cid
                  { self with buckets := self.buckets.set i b } })
      | .rejected =>
        (0, { w1 with heap := (internal_ao2_ref heap1 oid (-1)).2 })

/-- `__ao2_link`: sanity checks, then the vtable link. -/
def ao2_link (w : World) (cid : Nat) (oid : Nat) : Int × World :=
  if validObj w oid && validCont w cid then hash_ao2_link w cid oid
  else (0, w)

/-- Interpret a comparison callback on a visited payload.  The result is
the raw callback return value together with the (possibly mutated)
world. -/
def interpCB (w : World) (code : CBCode) (oid : Nat) (arg : CArg) :
    Nat × World :=
  match code with
  | .cbTrue => (CMP_MATCH, w)
  | .matchByAddr =>
    (if arg = CArg.byObj oid then CMP_MATCH + CMP_STOP else 0, w)
  | .keyEq =>
    (match arg with
     | .byKey k => if keyOfW w oid = k then CMP_MATCH else 0
     | .byObj o => if keyOfW w oid = keyOfW w o then CMP_MATCH else 0
     | _ => 0, w)
  | .dupObj =>
    match arg with
    | .byCont dcid =>
      let r := ao2_link w dcid oid
      (if r.1 = 1 then 0 else CMP_MATCH + CMP_STOP, r.2)
    | _ => (CMP_MATCH + CMP_STOP, w)

/-- Traversal context: the container, flag word, callback, argument, the
sort function selected for early termination (only on keyed lookups) and
the argument's key (what `sort_fn(node, arg, flags)` compares against). -/
structure TravCtx where
  cid : Nat
  flags : SFlags
  cb : CBCode
  arg : CArg
  sortFn : Option (Int → Int → Int)
  argKey : Int

/-- Traversal accumulator: current world, single-object return slot, and
the ordered payloads linked into the multi-result container. -/
structure TravSt where
  w : World
  ret : Option Nat
  multi : List Nat

/-- Scan one bucket list in walk order (the caller reverses the list for
a descending walk).  Returns the nodes remaining in the bucket (in walk
order), the accumulator, and whether the whole traversal must stop.
Mirrors the inner loop of `hash_ao2_callback`: tombstones are skipped;
the sort function prunes (skip or cut off the bucket); the callback's
CMP_MATCH/CMP_STOP bits drive returning, accumulating, unlinking and
stopping.  The prune models the spec's reading of
`sort_fn(node, arg, flags)` with the payload's key on the left; the
source (astobj2.c:1884) passes the bucket-node pointer itself there, so
theorems over this definition either fix `sortFn = none` or hold for
every prune outcome. -/
def scanBucket (ctx : TravCtx) : List Node → TravSt → List Node × TravSt × Bool
  | [], st => ([], st, false)
  | node :: rest, st =>
    match node.obj with
    | none =>
      let r := scanBucket ctx rest st
      (node :: r.1, r.2.1, r.2.2)
    | some oid =>
      let skip : Bool :=
        match ctx.sortFn with
        | none => false
        | some sf =>
          let cmp := sf (keyOfW st.w oid) ctx.argKey
          if ctx.flags.descending then decide (0 < cmp) else decide (cmp < 0)
      let cutoff : Bool :=
        match ctx.sortFn with
        | none => false
        | some sf =>
          let cmp := sf (keyOfW st.w oid) ctx.argKey
          if ctx.flags.descending then decide (cmp < 0) else decide (0 < cmp)
      if skip then
        let r := scanBucket ctx rest st
        (node :: r.1, r.2.1, r.2.2)
      else if cutoff then
        (node :: rest, st, false)
      else
        let c := interpCB st.w ctx.cb oid ctx.arg
        let mbits := (CMP_MATCH + CMP_STOP) &&& c.1
        if mbits = 0 then
          let r := scanBucket ctx rest { st with w := c.2 }
          (node :: r.1, r.2.1, r.2.2)
        else if mbits = CMP_STOP then
          (node :: rest, { st with w := c.2 }, true)
        else
          let multiActive := ctx.flags.multiple && !ctx.flags.nodata
          let st1 : TravSt :=
            if ctx.flags.nodata then { st with w := c.2 }
            else if multiActive then
              { w := { c.2 with heap := (internal_ao2_ref c.2.heap oid 1).2 }
                ret := st.ret
                multi := st.multi ++ [oid] }
            else if ctx.flags.unlink then
              { w := c.2, ret := some oid, multi := st.multi }
            else
              { w := { c.2 with heap := (internal_ao2_ref c.2.heap oid 1).2 }
                ret := some oid
                multi := st.multi }
          if ctx.flags.unlink then
            let w2 := updateCont st1.w ctx.cid
              (fun c => { c with elements := c.elements - 1 })
            let w3 :=
              if multiActive || ctx.flags.nodata then
                { w2 with heap := (internal_ao2_ref w2.heap oid (-1)).2 }
              else w2
            let st2 : TravSt := { st1 with w := w3 }
            if mbits &&& CMP_STOP ≠ 0 ∨ ctx.flags.multiple = false then
              (rest, st2, true)
            else
              scanBucket ctx rest st2
          else
            if mbits &&& CMP_STOP ≠ 0 ∨ ctx.flags.multiple = false then
              (node :: rest, st1, true)
            else
              let r := scanBucket ctx rest st1
              (node :: r.1, r.2.1, r.2.2)

/-- Process one bucket: read it, scan it in the walk direction, and
write the surviving nodes back. -/
def traverseOneBucket (ctx : TravCtx) (i : Nat) (st : TravSt) : TravSt × Bool :=
  match st.w.conts ctx.cid with
  | none => (st, false)
  | some self =>
    let bucket := (self.buckets.get? i).getD []
    if ctx.flags.descending then
      let r := scanBucket ctx bucket.reverse st
      ({ r.2.1 with
          w := updateCont r.2.1.w ctx.cid
            (fun c => { c with buckets := c.buckets.set i r.1.reverse }) },
       r.2.2)
    else
      let r := scanBucket ctx bucket st
      ({ r.2.1 with
          w := updateCont r.2.1.w ctx.cid
            (fun c => { c with buckets := c.buckets.set i r.1 }) },
       r.2.2)

/-- Walk the buckets in traversal order until told to stop. -/
def traverseBuckets (ctx : TravCtx) : List Nat → TravSt → TravSt
  | [], st => st
  | i :: rest, st =>
    let r := traverseOneBucket ctx i st
    if r.2 then r.1 else traverseBuckets ctx rest r.1

/-- The sequence of bucket indices `hash_ao2_callback` visits, folding
its boundary computation and the OBJ_CONTINUE wrap into one list.  On a
keyed lookup the start index is the C expression
`hash_fn(arg, flags) % n_buckets` (truncating `%`, no abs); a negative
result falls into the `i < 0` branch, i.e. a full scan. -/
def callbackBucketOrder (n : Nat) (descending keyed wrap : Bool)
    (hashVal : Int) : List Nat :=
  if keyed then
    let r := Int.tmod hashVal (n : Int)
    if r < 0 then
      if descending then (List.range n).reverse else List.range n
    else
      let s := r.toNat
      if wrap then
        if descending then (List.range n).map (fun j => (s + n - j) % n)
        else (List.range n).map (fun j => (s + j) % n)
      else [s]
  else
    if descending then (List.range n).reverse else List.range n

/-- The argument key a keyed lookup hashes and sorts against. -/
def argKeyOf (w : World) (arg : CArg) : Int :=
  match arg with
  | .byKey k => k
  | .byObj o => keyOfW w o
  | _ => 0

/-- `hash_ao2_callback`: the container traversal.  Returns the single
matched payload (when not OBJ_MULTIPLE/OBJ_NODATA), the ordered list of
payloads a multi-result traversal accumulates, and the final world. -/
def hash_ao2_callback (w : World) (cid : Nat) (flags : SFlags)
    (cb : Option CBCode) (arg : CArg) : Option Nat × List Nat × World :=
  match w.conts cid with
  | none => (none, [], w)
  | some self =>
    let keyed := flags.pointer || flags.key
    let ctx : TravCtx :=
      { cid := cid
        flags := flags
        cb := cb.getD CBCode.cbTrue
        arg := arg
        sortFn := if keyed then self.sortFn else none
        argKey := argKeyOf w arg }
    let order := callbackBucketOrder self.n_buckets flags.descending keyed
      flags.contWrap (self.hashFn ctx.argKey)
    let st := traverseBuckets ctx order { w := w, ret := none, multi := [] }
    (st.ret, st.multi, st.w)

/-- `__ao2_callback`: sanity checks, then the vtable traversal. -/
def ao2_callback (w : World) (cid : Nat) (flags : SFlags)
    (cb : Option CBCode) (arg : CArg) : Option Nat × List Nat × World :=
  match w.conts cid with
  | some c =>
    if c.alive then hash_ao2_callback w cid flags cb arg else (none, [], w)
  | none => (none, [], w)

/-- `__ao2_find`: the default callback with the container's stored
lookup-match function. -/
def ao2_find (w : World) (cid : Nat) (arg : CArg) (flags : SFlags) :
    Option Nat × World :=
  match w.conts cid with
  | none => (none, w)
  | some c =>
    let r := ao2_callback w cid flags c.cmpFn arg
    (r.1, r.2.2)

/-- `__ao2_unlink`: force OBJ_UNLINK|OBJ_POINTER|OBJ_NODATA and traverse
with `ao2_match_by_addr`. -/
def ao2_unlink (w : World) (cid : Nat) (oid : Nat) (flags : SFlags) : World :=
  if validObj w oid then
    (ao2_callback w cid
      { flags with unlink := true, pointer := true, nodata := true }
      (some CBCode.matchByAddr) (CArg.byObj oid)).2.2
  else w

/-- `container_destruct`: flag destruction, unlink every stored object,
then tear the container down. -/
def container_destruct (w : World) (cid : Nat) : World :=
  let w1 := updateCont w cid (fun c => { c with destroying := true })
  let w2 := (ao2_callback w1 cid flagsUnlinkAll Option.none CArg.noArg).2.2
  updateCont w2 cid (fun c => { c with alive := false })

/-- `internal_ao2_ref` applied to a container handle: the count moves
just as for payloads, and the 0 transition runs `container_destruct`. -/
def ao2_ref_cont (w : World) (cid : Nat) (delta : Int) : Int × World :=
  match w.conts cid with
  | none => (-1, w)
  | some c =>
    if c.alive = false then (-1, w)
    else if delta = 0 then (c.ref, w)
    else
      let ret := c.ref
      let current := ret + delta
      if 0 < current then
        (ret, updateCont w cid (fun c => { c with ref := current }))
      else
        (ret, container_destruct
          (updateCont w cid (fun c => { c with ref := current })) cid)

/-- `hash_ao2_alloc_empty_clone`: a fresh container with the original's
options and functions (the stored hash function is never null, so the
bucket count is preserved). -/
def hash_ao2_alloc_empty_clone (w : World) (cid : Nat) : Option Nat × World :=
  match w.conts cid with
  | none => (none, w)
  | some c =>
    container_alloc_hash w c.insertBegin c.dups c.n_buckets (some c.hashFn)
      c.sortFn c.cmpFn

/-- `ao2_container_dup`: traverse the source with `dup_obj_cb`; a
returned object means a link failed, so release it, empty the
destination and report -1. -/
def ao2_container_dup (w : World) (dest src : Nat) : Int × World :=
  let r := ao2_callback w src SFlags.none (some CBCode.dupObj) (CArg.byCont dest)
  match r.1 with
  | some o =>
    let w2 := { r.2.2 with heap := (internal_ao2_ref r.2.2.heap o (-1)).2 }
    let w3 := (ao2_callback w2 dest flagsUnlinkAll Option.none CArg.noArg).2.2
    (-1, w3)
  | none => (0, r.2.2)

/-- `__ao2_container_clone`: allocate an empty clone, copy with
`ao2_container_dup`, and on failure release the clone (which empties and
destroys it) and return null. -/
def ao2_container_clone (w : World) (orig : Nat) : Option Nat × World :=
  match w.conts orig with
  | none => (none, w)
  | some c =>
    if c.alive = false then (none, w)
    else
      let r := hash_ao2_alloc_empty_clone w orig
      match r.1 with
      | none => (none, r.2)
      | some cl =>
        let d := ao2_container_dup r.2 cl orig
        if d.1 = 0 then (some cl, d.2)
        else (none, (ao2_ref_cont d.2 cl (-1)).2)

/-! ### Concrete material used by witnesses and counterexamples -/

/-- The empty world: nothing allocated, every allocation succeeds. -/
def emptyWorld : World :=
  { heap := fun _ => none
    nextObj := 0
    conts := fun _ => none
    nextCont := 0
    allocs := [] }

/-- An empty heap. -/
def emptyHeap : Heap := fun _ => none

/-- A heap holding one freshly allocated object (key 0, with destructor)
at id 0. -/
def oneObjHeap : Heap := hset emptyHeap 0 (freshPObj 0 true)

/-- A live object with a destructor and a single reference. -/
def exObj : PObj := freshPObj 0 true

/-- The integer comparison used as a sort function: negative, zero or
positive as the left key is below, equal to or above the right key. -/
def sortSub : Int → Int → Int :=
  fun a b => if a < b then -1 else if b < a then 1 else 0

/-- A 4-bucket container whose hash function always returns -3. -/
def negHashCont : HashCont :=
  { insertBegin := false
    dups := DupOpt.allow
    sortFn := none
    cmpFn := none
    hashFn := fun _ => -3
    n_buckets := 4
    buckets := [[], [], [], []]
    elements := 0
    destroying := false
    ref := 1
    alive := true }

/-- A world holding one live payload (id 0) and one unsorted one-bucket
container (id 0) with the REJECT duplicate policy that already stores
that same payload. -/
def c9World : World :=
  { heap := hset emptyHeap 0 (freshPObj 5 true)
    nextObj := 1
    conts := setCont (fun _ => none) 0
      { insertBegin := false
        dups := DupOpt.reject
        sortFn := none
        cmpFn := none
        hashFn := hash_zero
        n_buckets := 1
        buckets := [[⟨some 0⟩]]
        elements := 1
        destroying := false
        ref := 1
        alive := true }
    nextCont := 1
    allocs := [] }


/-- A world with one payload (id 0) linked once into an unsorted
one-bucket container (id 0): the starting point of the C7 witness. -/
def c7World : World :=
  { heap := hset emptyHeap 0 ⟨7, 2, true, true, 0⟩
    nextObj := 1
    conts := setCont (fun _ => none) 0
      { insertBegin := false
        dups := DupOpt.allow
        sortFn := none
        cmpFn := none
        hashFn := hash_zero
        n_buckets := 1
        buckets := [[⟨some 0⟩]]
        elements := 1
        destroying := false
        ref := 1
        alive := true }
    nextCont := 1
    allocs := [] }

/-- The container of `c7World` after its object has been unlinked. -/
def c7Gone : HashCont :=
  { insertBegin := false
    dups := DupOpt.allow
    sortFn := none
    cmpFn := none
    hashFn := hash_zero
    n_buckets := 1
    buckets := [[]]
    elements := 0
    destroying := false
    ref := 1
    alive := true }



/-- A container node holding payload id `i`. -/
def mkNode (i : Nat) : Node := ⟨some i⟩

/-- The C4 source container: an unsorted one-bucket list container
holding payload ids `0 .. n-1` in order. -/
def srcCont (n : Nat) : HashCont :=
  { insertBegin := false
    dups := DupOpt.allow
    sortFn := none
    cmpFn := none
    hashFn := hash_zero
    n_buckets := 1
    buckets := [(List.range n).map mkNode]
    elements := (n : Int)
    destroying := false
    ref := 1
    alive := true }

/-- The clone container after `m` objects have been copied into it. -/
def cloneCont (m : Nat) : HashCont :=
  { insertBegin := false
    dups := DupOpt.allow
    sortFn := none
    cmpFn := none
    hashFn := hash_zero
    n_buckets := 1
    buckets := [(List.range m).map mkNode]
    elements := (m : Int)
    destroying := false
    ref := 1
    alive := true }

/-- The C4 source world: payloads with keys `ks` (each held once by the
caller and once by the source container, refcount 2), the source
container at id 0, and an allocator stream `al`. -/
def srcWorld (ks : List Int) (al : List Bool) : World :=
  { heap := fun i =>
      if i < ks.length then some ⟨ks.getD i 0, 2, true, true, 0⟩ else none
    nextObj := ks.length
    conts := setCont (fun _ => none) 0 (srcCont ks.length)
    nextCont := 1
    allocs := al }

/-- The world in the middle of `ao2_container_dup` into the clone
(container id 1): the first `m` payloads also referenced by the clone
(refcount 3), `j - m` successful node allocations left before the
failing one. -/
def dupMid (ks : List Int) (j m : Nat) : World :=
  { heap := fun i =>
      if i < m then some ⟨ks.getD i 0, 3, true, true, 0⟩
      else if i < ks.length then some ⟨ks.getD i 0, 2, true, true, 0⟩
      else none
    nextObj := ks.length
    conts := setCont (setCont (fun _ => none) 0 (srcCont ks.length)) 1
      (cloneCont m)
    nextCont := 2
    allocs := List.replicate (j - m) true ++ [false] }

/-- The world right after the failing link: payloads `0 .. j-1` held by
the clone, payload `j` carrying the traversal's extra return reference
(refcount 3), allocator stream exhausted. -/
def dupFail (ks : List Int) (j : Nat) : World :=
  { heap := fun i =>
      if i ≤ j then some ⟨ks.getD i 0, 3, true, true, 0⟩
      else if i < ks.length then some ⟨ks.getD i 0, 2, true, true, 0⟩
      else none
    nextObj := ks.length
    conts := setCont (setCont (fun _ => none) 0 (srcCont ks.length)) 1
      (cloneCont j)
    nextCont := 2
    allocs := [] }

/-- The world in the middle of the rollback that empties the clone: the
first `m` clone nodes already removed (the bucket list itself is written
back only when the scan finishes, so only the element count has moved)
and their references dropped. -/
def emptyMid (ks : List Int) (j m : Nat) : World :=
  { heap := fun i =>
      if i < m then some ⟨ks.getD i 0, 2, true, true, 0⟩
      else if i < j then some ⟨ks.getD i 0, 3, true, true, 0⟩
      else if i < ks.length then some ⟨ks.getD i 0, 2, true, true, 0⟩
      else none
    nextObj := ks.length
    conts := setCont (setCont (fun _ => none) 0 (srcCont ks.length)) 1
      { cloneCont j with elements := (j : Int) - (m : Int) }
    nextCont := 2
    allocs := [] }

/-- A 4-bucket container hashing a key to itself. -/
def idHashCont : HashCont :=
  { insertBegin := false
    dups := DupOpt.allow
    sortFn := none
    cmpFn := none
    hashFn := fun k => k
    n_buckets := 4
    buckets := [[], [], [], []]
    elements := 0
    destroying := false
    ref := 1
    alive := true }

/-- The traversal context `ao2_container_dup` runs over the source
container (id 0) linking every payload into the destination (id 1). -/
def dupCtx : TravCtx :=
  { cid := 0
    flags := SFlags.none
    cb := CBCode.dupObj
    arg := CArg.byCont 1
    sortFn := none
    argKey := 0 }

/-- The traversal context of the unlink-everything sweeps (the dup
rollback and `container_destruct`) over the clone (id 1). -/
def unlinkAllCtx : TravCtx :=
  { cid := 1
    flags := flagsUnlinkAll
    cb := CBCode.cbTrue
    arg := CArg.noArg
    sortFn := none
    argKey := 0 }

/-- The world after the failed dup's rollback sweep: the clone (id 1) is
empty again and every payload is back at refcount 2. -/
def emptyDest (ks : List Int) : World :=
  { heap := fun i =>
      if i < ks.length then some ⟨ks.getD i 0, 2, true, true, 0⟩ else none
    nextObj := ks.length
    conts := setCont (setCont (fun _ => none) 0 (srcCont ks.length)) 1
      (cloneCont 0)
    nextCont := 2
    allocs := [] }

/-- The clone container after `__ao2_container_clone` releases its
reference: empty, flagged destroying, refcount 0, magic gone. -/
def deadCloneCont : HashCont :=
  { cloneCont 0 with destroying := true, ref := 0, alive := false }

/-- The final world of a failed clone: the source container and every
payload exactly as before the clone call, and the clone dead and
empty. -/
def rolledBackWorld (ks : List Int) : World :=
  { heap := fun i =>
      if i < ks.length then some ⟨ks.getD i 0, 2, true, true, 0⟩ else none
    nextObj := ks.length
    conts := setCont (setCont (fun _ => none) 0 (srcCont ks.length)) 1
      deadCloneCont
    nextCont := 2
    allocs := [] }

/-! ### Lemmas -/

theorem hset_self (h : Heap) (i : Nat) (o : PObj) : hset h i o i = some o := by
  simp [hset]

theorem hset_ne (h : Heap) (i j : Nat) (o : PObj) (hij : j ≠ i) :
    hset h i o j = h j := by
  simp [hset, hij]

theorem setCont_self (s : Nat → Option HashCont) (i : Nat) (c : HashCont) :
    setCont s i c i = some c := by
  simp [setCont]

theorem setCont_ne (s : Nat → Option HashCont) (i j : Nat) (c : HashCont)
    (hij : j ≠ i) : setCont s i c j = s j := by
  simp [setCont, hij]

theorem runOps_cons (h : Heap) (oid : Nat) (d : Int) (ops : List Int) :
    runOps h oid (d :: ops) = runOps (internal_ao2_ref h oid d).2 oid ops := rfl

/-- The count of a dead (bad-magic) object is never adjusted again: the
entry point rejects the handle. -/
theorem ref_dead (h : Heap) (oid : Nat) (o : PObj) (delta : Int)
    (hget : h oid = some o) (hdead : o.alive = false) :
    internal_ao2_ref h oid delta = (-1, h) := by
  simp [internal_ao2_ref, hget, hdead]

/-- Running any operation sequence against a dead object leaves the heap
unchanged. -/
theorem runOps_dead (ops : List Int) (h : Heap) (oid : Nat) (o : PObj)
    (hget : h oid = some o) (hdead : o.alive = false) :
    runOps h oid ops = h := by
  induction ops with
  | nil => rfl
  | cons d rest ih =>
    rw [runOps_cons, ref_dead h oid o d hget hdead]
    exact ih

/-- On a sequence of unit deltas that keeps the count positive at every
prefix, the object stays alive, the destructor never runs, and the count
ends at its start plus the sequence balance. -/
theorem runOps_live (ops : List Int) : ∀ (h : Heap) (oid : Nat) (o : PObj),
    h oid = some o → o.alive = true →
    (∀ d ∈ ops, d = 1 ∨ d = -1) →
    (∀ j, j ≤ ops.length → 0 < o.ref + bal (ops.take j)) →
    runOps h oid ops oid = some { o with ref := o.ref + bal ops } := by
  induction ops with
  | nil =>
    intro h oid o hget _ _ _
    simpa [runOps, bal] using hget
  | cons d rest ih =>
    intro h oid o hget halive hops hpref
    have hd : d = 1 ∨ d = -1 := hops d (by simp)
    have hd0 : ¬ d = 0 := by rcases hd with h1 | h1 <;> simp [h1]
    have hpos1 : 0 < o.ref + d := by
      have := hpref 1 (by simp)
      simpa [bal] using this
    have step : internal_ao2_ref h oid d =
        (o.ref, hset h oid { o with ref := o.ref + d }) := by
      simp [internal_ao2_ref, hget, halive, hd0, hpos1]
    rw [runOps_cons, step]
    have := ih (hset h oid { o with ref := o.ref + d }) oid
      { o with ref := o.ref + d } (hset_self _ _ _) halive
      (fun d hd => hops d (by simp [hd]))
      (fun j hj => by
        have := hpref (j + 1) (by simpa using hj)
        simpa [bal, add_assoc] using this)
    rw [this]
    simp [bal, add_assoc]

/-- A nonnegative truncated remainder is the remainder of the absolute
value: the folding `hash % n` agrees with `abs(hash) % n` exactly when
the C remainder is nonnegative. -/
theorem tmod_toNat_eq (h : Int) (n : Nat)
    (hpos : 0 ≤ Int.tmod h (n : Int)) :
    (Int.tmod h (n : Int)).toNat = h.natAbs % n := by
  cases h with
  | ofNat m =>
    show (Int.ofNat (m % n)).toNat = (Int.ofNat m).natAbs % n
    rfl
  | negSucc m =>
    have heq : Int.tmod (Int.negSucc m) (n : Int) = -(Int.ofNat ((m+1) % n)) :=
      rfl
    rw [heq] at hpos ⊢
    rw [Int.ofNat_eq_coe] at hpos
    have hr : (m+1) % n = 0 := by omega
    have hna : (Int.negSucc m).natAbs = m + 1 := rfl
    rw [hna, hr]
    rfl

theorem head?_range (n : Nat) (h : 0 < n) : (List.range n).head? = some 0 := by
  cases n with
  | zero => omega
  | succ m => rw [List.range_eq_range']; rfl

/-- For unit-delta sequences the balance is the bump count minus the
release count. -/
theorem bal_eq_counts (ops : List Int) (hops : ∀ d ∈ ops, d = 1 ∨ d = -1) :
    bal ops = (bumps ops : Int) - (rels ops : Int) := by
  induction ops with
  | nil => simp [bal, bumps, rels]
  | cons d rest ih =>
    have hd : d = 1 ∨ d = -1 := hops d (by simp)
    have ihr := ih (fun d hd => hops d (by simp [hd]))
    rcases hd with h1 | h1 <;>
      simp [bal, bumps, rels, h1, List.count_cons] at ihr ⊢ <;> omega


theorem set_getD_self (l : List Bucket) (i : Nat) :
    l.set i ((l.get? i).getD []) = l := by
  induction l generalizing i with
  | nil => rfl
  | cons a t ih =>
    cases i with
    | zero => rfl
    | succ j =>
      show a :: t.set j ((t.get? j).getD []) = a :: t
      rw [ih j]

theorem setCont_eq_self (s : Nat → Option HashCont) (cid : Nat) (c : HashCont)
    (hc : s cid = some c) : setCont s cid c = s := by
  funext j
  by_cases hj : j = cid
  · rw [hj, setCont_self, hc]
  · exact setCont_ne s cid j c hj

theorem updateCont_self (w : World) (cid : Nat) (c : HashCont)
    (hc : w.conts cid = some c) (f : HashCont → HashCont) (hfc : f c = c) :
    updateCont w cid f = w := by
  rw [updateCont, hc]
  simp only [hfc, setCont_eq_self w.conts cid c hc]

/-- A default-flag (single match, no unlink) scan of a bucket whose
nodes are all tombstones matches nothing and changes nothing. -/
theorem scanFirst_none (ctx : TravCtx)
    (hf : ctx.flags = SFlags.none) (hcb : ctx.cb = CBCode.cbTrue)
    (hsort : ctx.sortFn = none) :
    ∀ (l : List Node) (st : TravSt),
      l.filterMap Node.obj = [] →
      scanBucket ctx l st = (l, st, false) := by
  intro l
  induction l with
  | nil => intro st _; rfl
  | cons node rest ih =>
    intro st hemp
    obtain ⟨nobj⟩ := node
    cases nobj with
    | none =>
      rw [scanBucket]
      simp only [List.filterMap_cons] at hemp
      rw [ih st hemp]
    | some o =>
      simp [List.filterMap_cons] at hemp

/-- A default-flag scan with the match-everything callback stops at the
first held payload: it is returned, its refcount is bumped for the
caller, and the bucket is left intact. -/
theorem scanFirst_some (ctx : TravCtx)
    (hf : ctx.flags = SFlags.none) (hcb : ctx.cb = CBCode.cbTrue)
    (hsort : ctx.sortFn = none) :
    ∀ (l : List Node) (oid : Nat) (st : TravSt),
      (l.filterMap Node.obj).head? = some oid →
      scanBucket ctx l st
        = (l, ⟨{ st.w with heap := (internal_ao2_ref st.w.heap oid 1).2 },
               some oid, st.multi⟩, true) := by
  intro l
  induction l with
  | nil => intro oid st h; simp at h
  | cons node rest ih =>
    intro oid st hhead
    obtain ⟨nobj⟩ := node
    cases nobj with
    | none =>
      rw [scanBucket]
      simp only [List.filterMap_cons] at hhead
      rw [ih oid st hhead]
    | some o =>
      simp only [List.filterMap_cons, List.head?_cons, Option.some.injEq] at hhead
      subst hhead
      rw [scanBucket]
      simp [hf, hcb, hsort, SFlags.none, interpCB, CMP_MATCH, CMP_STOP]

theorem traverseFirst_none (ctx : TravCtx)
    (hf : ctx.flags = SFlags.none) (hcb : ctx.cb = CBCode.cbTrue)
    (hsort : ctx.sortFn = none) :
    ∀ (idxs : List Nat) (st : TravSt) (c : HashCont),
      st.w.conts ctx.cid = some c →
      ((idxs.map (fun i => (c.buckets.get? i).getD [])).flatten).filterMap
          Node.obj = [] →
      traverseBuckets ctx idxs st = st := by
  intro idxs
  induction idxs with
  | nil => intro st c _ _; rfl
  | cons i rest ih =>
    intro st c hc hemp
    simp only [List.map_cons, List.flatten_cons, List.filterMap_append,
      List.append_eq_nil] at hemp
    rw [traverseBuckets, traverseOneBucket, hc]
    simp only [hf, SFlags.none]
    rw [scanFirst_none ctx hf hcb hsort _ st hemp.1]
    simp only
    rw [updateCont_self st.w ctx.cid c hc _ (by rw [set_getD_self])]
    exact ih st c hc hemp.2

/-- A default-flag full traversal with the match-everything callback
returns the first held payload across the visited buckets, with its
refcount bumped, leaving everything else unchanged. -/
theorem traverseFirst_some (ctx : TravCtx)
    (hf : ctx.flags = SFlags.none) (hcb : ctx.cb = CBCode.cbTrue)
    (hsort : ctx.sortFn = none) :
    ∀ (idxs : List Nat) (oid : Nat) (st : TravSt) (c : HashCont),
      st.w.conts ctx.cid = some c →
      (((idxs.map (fun i => (c.buckets.get? i).getD [])).flatten).filterMap
          Node.obj).head? = some oid →
      traverseBuckets ctx idxs st
        = ⟨{ st.w with heap := (internal_ao2_ref st.w.heap oid 1).2 },
           some oid, st.multi⟩ := by
  intro idxs
  induction idxs with
  | nil => intro oid st c _ h; simp at h
  | cons i rest ih =>
    intro oid st c hc hhead
    simp only [List.map_cons, List.flatten_cons, List.filterMap_append,
      List.head?_append] at hhead
    rw [traverseBuckets, traverseOneBucket, hc]
    simp only [hf, SFlags.none]
    cases hb : (((c.buckets.get? i).getD []).filterMap Node.obj).head? with
    | none =>
      have hbe : ((c.buckets.get? i).getD []).filterMap Node.obj = [] :=
        List.head?_eq_none_iff.mp hb
      rw [scanFirst_none ctx hf hcb hsort _ st hbe]
      simp only
      rw [updateCont_self st.w ctx.cid c hc _ (by rw [set_getD_self])]
      rw [hb, Option.none_or] at hhead
      exact ih oid st c hc hhead
    | some o =>
      rw [hb] at hhead
      rw [show (some o).or ((rest.map (fun i => (c.buckets.get? i).getD [])).flatten.filterMap Node.obj).head? = some o from rfl] at hhead
      cases hhead
      simp only [Bool.false_eq_true, if_false]
      rw [scanFirst_some ctx hf hcb hsort _ oid st hb]
      simp only [if_true]
      rw [updateCont_self
        { heap := (internal_ao2_ref st.w.heap oid 1).2, nextObj := st.w.nextObj,
          conts := st.w.conts, nextCont := st.w.nextCont,
          allocs := st.w.allocs }
        ctx.cid c hc
        (fun c1 => { c1 with
          buckets := c1.buckets.set i ((c.buckets.get? i).getD []) })
        (by show { c with
              buckets := c.buckets.set i ((c.buckets.get? i).getD []) } = c
            rw [set_getD_self])]

theorem map_range_getD (l : List Bucket) :
    (List.range l.length).map (fun i => (l.get? i).getD []) = l := by
  induction l with
  | nil => rfl
  | cons a t ih =>
    rw [List.length_cons, List.range_succ_eq_map]
    simp only [List.map_cons, List.get?_cons_zero, Option.getD_some,
      List.map_map]
    congr 1


/-- A scan with `ao2_match_by_addr` over a bucket in which no node holds
the argument object matches nothing and changes nothing, whatever the
sort function decides (skips and early cutoffs do not modify state). -/
theorem scanNoMatch (ctx : TravCtx) (oid : Nat)
    (hcb : ctx.cb = CBCode.matchByAddr) (harg : ctx.arg = CArg.byObj oid) :
    ∀ (l : List Node) (st : TravSt),
      (∀ n ∈ l, n.obj ≠ some oid) →
      scanBucket ctx l st = (l, st, false) := by
  intro l
  induction l with
  | nil => intro st _; rfl
  | cons node rest ih =>
    intro st hno
    have hno' : ∀ n ∈ rest, n.obj ≠ some oid :=
      fun n hn => hno n (List.mem_cons_of_mem _ hn)
    obtain ⟨nobj⟩ := node
    cases nobj with
    | none =>
      rw [scanBucket]
      rw [ih st hno']
    | some o =>
      have hne : ¬ o = oid := by
        intro he
        exact hno ⟨some o⟩ (by simp) (by simp [he])
      have hne2 : ¬ ctx.arg = CArg.byObj o := by
        rw [harg]
        intro hx
        cases hx
        exact hne rfl
      cases hs : ctx.sortFn with
      | none =>
        rw [scanBucket]
        simp only [hs, hcb, interpCB, hne2, if_false, CMP_MATCH, CMP_STOP]
        norm_num
        rw [ih st hno']
        exact ⟨rfl, rfl⟩
      | some sf =>
        rw [scanBucket]
        simp only [hs, hcb, interpCB, hne2, if_false, CMP_MATCH, CMP_STOP]
        norm_num
        split_ifs <;> simp [ih st hno']

/-- A full traversal with `ao2_match_by_addr` over a container none of
whose nodes holds the argument object is the identity: nothing matches,
nothing is unlinked or re-counted. -/
theorem traverseNoMatch (ctx : TravCtx) (oid : Nat)
    (hcb : ctx.cb = CBCode.matchByAddr) (harg : ctx.arg = CArg.byObj oid) :
    ∀ (idxs : List Nat) (st : TravSt) (c : HashCont),
      st.w.conts ctx.cid = some c →
      (∀ b ∈ c.buckets, ∀ n ∈ b, n.obj ≠ some oid) →
      traverseBuckets ctx idxs st = st := by
  intro idxs
  induction idxs with
  | nil => intro st c _ _; rfl
  | cons i rest ih =>
    intro st c hc hno
    have hbi : ∀ n ∈ (c.buckets.get? i).getD [], n.obj ≠ some oid := by
      intro n hn
      cases hgi : c.buckets.get? i with
      | none => rw [hgi] at hn; simp at hn
      | some b =>
        rw [hgi] at hn
        exact hno b (List.get?_mem hgi) n hn
    rw [traverseBuckets, traverseOneBucket, hc]
    cases hd : ctx.flags.descending with
    | false =>
      simp only [Bool.false_eq_true, if_false]
      rw [scanNoMatch ctx oid hcb harg _ st hbi]
      simp only
      rw [updateCont_self st.w ctx.cid c hc _ (by rw [set_getD_self])]
      exact ih st c hc hno
    | true =>
      simp only [if_true]
      have hbir : ∀ n ∈ ((c.buckets.get? i).getD []).reverse,
          n.obj ≠ some oid := fun n hn => hbi n (List.mem_reverse.mp hn)
      rw [scanNoMatch ctx oid hcb harg _ st hbir]
      simp only [List.reverse_reverse]
      rw [updateCont_self st.w ctx.cid c hc _ (by rw [set_getD_self])]
      exact ih st c hc hno



theorem World.ext' (w1 w2 : World)
    (h1 : w1.heap = w2.heap) (h2 : w1.nextObj = w2.nextObj)
    (h3 : w1.conts = w2.conts) (h4 : w1.nextCont = w2.nextCont)
    (h5 : w1.allocs = w2.allocs) : w1 = w2 := by
  cases w1
  cases w2
  cases h1
  cases h2
  cases h3
  cases h4
  cases h5
  rfl

theorem setCont_setCont (s : Nat → Option HashCont) (i : Nat)
    (a b : HashCont) : setCont (setCont s i a) i b = setCont s i b := by
  funext j
  by_cases hj : j = i <;> simp [setCont, hj]

/-- Evaluation of `ao2_link` on a container without a sort function:
always inserts a fresh node at the head or tail, bumps the element
count, and returns 1, whatever the duplicate policy. -/
theorem link_no_sort (w : World) (cid oid : Nat) (c : HashCont)
    (o : PObj)
    (hc : w.conts cid = some c) (hcal : c.alive = true)
    (hsort : c.sortFn = none)
    (ho : w.heap oid = some o) (hoal : o.alive = true)
    (hok : (popAlloc w.allocs).1 = true) :
    ao2_link w cid oid
      = (1,
         { w with
            heap := (internal_ao2_ref w.heap oid 1).2
            conts := setCont w.conts cid
              { c with
                  buckets := c.buckets.set
                    (linkBucketIndex c (keyOfW w oid))
                    (if c.insertBegin then
                      ⟨some oid⟩ ::
                        ((c.buckets.get? (linkBucketIndex c (keyOfW w oid))).getD [])
                    else
                      ((c.buckets.get? (linkBucketIndex c (keyOfW w oid))).getD [])
                        ++ [⟨some oid⟩])
                  elements := c.elements + 1 }
            allocs := (popAlloc w.allocs).2 }) :=
 by
  have hvo : validObj w oid = true := by simp [validObj, ho, hoal]
  have hvc : validCont w cid = true := by simp [validCont, hc, hcal]
  rw [ao2_link, hvo, hvc]
  simp only [Bool.and_self, if_true]
  rw [hash_ao2_link, hc]
  simp only [hok, Bool.false_eq_true, if_false, if_true]
  cases hib : c.insertBegin <;>
    simp [hash_ao2_link_insert, hsort, hib, keyOfW]

/-- One successful copying step of `ao2_container_dup`: linking payload
`m` into the clone advances the middle state. -/
theorem dupLinkStep (ks : List Int) (j m : Nat) (hm : m < j)
    (hj : j < ks.length) :
    ao2_link (dupMid ks j m) 1 m = (1, dupMid ks j (m + 1)) := by
  have hmn : m < ks.length := lt_trans hm hj
  have hnm : ¬ m < m := lt_irrefl m
  have hrep : j - m = Nat.succ (j - m - 1) := by omega
  have hallocs : (dupMid ks j m).allocs
      = true :: (List.replicate (j - m - 1) true ++ [false]) := by
    show List.replicate (j - m) true ++ [false] = _
    conv_lhs => rw [hrep]
    rw [List.replicate_succ, List.cons_append]
  have h := link_no_sort (dupMid ks j m) 1 m (cloneCont m)
    ⟨ks.getD m 0, 2, true, true, 0⟩ rfl rfl rfl
    (by simp [dupMid, hnm, hmn]) rfl
    (by rw [hallocs]; rfl)
  rw [h]
  simp only [Prod.mk.injEq, true_and]
  have hbump : (internal_ao2_ref (dupMid ks j m).heap m 1).2
      = hset (dupMid ks j m).heap m ⟨ks.getD m 0, 3, true, true, 0⟩ := by
    rw [internal_ao2_ref]
    rw [show (dupMid ks j m).heap m = some ⟨ks.getD m 0, 2, true, true, 0⟩
      from by simp [dupMid, hnm, hmn]]
    norm_num
  have hcont : ({ cloneCont m with
      buckets := (cloneCont m).buckets.set
        (linkBucketIndex (cloneCont m) (keyOfW (dupMid ks j m) m))
        (if (cloneCont m).insertBegin then
          ⟨some m⟩ ::
            (((cloneCont m).buckets.get?
              (linkBucketIndex (cloneCont m) (keyOfW (dupMid ks j m) m))).getD [])
        else
          (((cloneCont m).buckets.get?
            (linkBucketIndex (cloneCont m) (keyOfW (dupMid ks j m) m))).getD [])
            ++ [⟨some m⟩])
      elements := (cloneCont m).elements + 1 } : HashCont)
      = cloneCont (m + 1) := by
    show ({ cloneCont m with
        buckets := [(List.range m).map mkNode ++ [⟨some m⟩]]
        elements := (m : Int) + 1 } : HashCont) = cloneCont (m + 1)
    rw [show ([⟨some m⟩] : List Node) = List.map mkNode [m] from rfl]
    rw [← List.map_append, ← List.range_succ]
    simp only [cloneCont, HashCont.mk.injEq]
    norm_num
  apply World.ext'
  · rw [hbump]
    show hset (dupMid ks j m).heap m ⟨ks.getD m 0, 3, true, true, 0⟩
      = (dupMid ks j (m + 1)).heap
    funext i
    by_cases hi : i = m
    · subst hi
      rw [hset_self]
      simp [dupMid, Nat.lt_succ_self]
    · rw [hset_ne _ _ _ _ hi]
      simp only [dupMid]
      by_cases h1 : i < m
      · simp [h1, show i < m + 1 from by omega]
      · simp [h1, show ¬ i < m + 1 from by omega]
  · rfl
  · show setCont (dupMid ks j m).conts 1 _ = (dupMid ks j (m + 1)).conts
    rw [hcont]
    show setCont (setCont (setCont (fun _ => none) 0 (srcCont ks.length)) 1
      (cloneCont m)) 1 (cloneCont (m + 1)) = _
    rw [setCont_setCont]
    rfl
  · rfl
  · show (popAlloc (dupMid ks j m).allocs).2 = (dupMid ks j (m + 1)).allocs
    rw [hallocs]
    show List.replicate (j - m - 1) true ++ [false]
      = List.replicate (j - (m + 1)) true ++ [false]
    rfl

/-- The failing copying step: the node allocation for payload `j` fails,
so the link returns 0 and only consumes the allocator outcome. -/
theorem dupLinkFail (ks : List Int) (j : Nat) (hj : j < ks.length) :
    ao2_link (dupMid ks j j) 1 j
      = (0, { dupMid ks j j with allocs := [] }) := by
  have hnj : ¬ j < j := lt_irrefl j
  have hvo : validObj (dupMid ks j j) j = true := by
    simp [validObj, dupMid, hnj, hj]
  have hvc : validCont (dupMid ks j j) 1 = true := rfl
  rw [ao2_link, hvo, hvc]
  simp only [Bool.and_self, if_true]
  rw [hash_ao2_link]
  rw [show (dupMid ks j j).conts 1 = some (cloneCont j) from rfl]
  have hallocs : (dupMid ks j j).allocs = [false] := by
    show List.replicate (j - j) true ++ [false] = [false]
    rw [Nat.sub_self]
    rfl
  simp only [hallocs, popAlloc]
  rfl

/-- The copying scan of `ao2_container_dup`: from payload `m` on, every
link into the clone succeeds until the node allocation for payload `j`
fails; `dup_obj_cb` then returns match-and-stop, the traversal takes an
extra reference on payload `j` and returns it, and the source bucket is
left intact. -/
theorem scanDup (ks : List Int) (j : Nat) (hj : j < ks.length) :
    ∀ (d m : Nat), m + d = j →
      scanBucket dupCtx ((List.range' m (ks.length - m)).map mkNode)
        ⟨dupMid ks j m, none, []⟩
      = ((List.range' m (ks.length - m)).map mkNode,
         ⟨dupFail ks j, some j, []⟩, true) := by
  have p1 : dupCtx.sortFn = (none : Option (Int → Int → Int)) := rfl
  have p2 : dupCtx.cb = CBCode.dupObj := rfl
  have p3 : dupCtx.arg = CArg.byCont 1 := rfl
  have p4 : dupCtx.flags.descending = false := rfl
  have p5 : dupCtx.flags.nodata = false := rfl
  have p6 : dupCtx.flags.multiple = false := rfl
  have p7 : dupCtx.flags.unlink = false := rfl
  intro d
  induction d with
  | zero =>
    intro m hmj
    rw [Nat.add_zero] at hmj
    subst hmj
    have hn : ks.length - m = (ks.length - (m + 1)) + 1 := by omega
    rw [hn, List.range'_succ, List.map_cons]
    have hlink := dupLinkFail ks m hj
    have hbump : (internal_ao2_ref (dupMid ks m m).heap m 1).2
        = hset (dupMid ks m m).heap m ⟨ks.getD m 0, 3, true, true, 0⟩ := by
      rw [internal_ao2_ref]
      rw [show (dupMid ks m m).heap m = some ⟨ks.getD m 0, 2, true, true, 0⟩
        from by simp [dupMid, lt_irrefl m, hj]]
      norm_num
    have hworld : ({ dupMid ks m m with
        heap := hset (dupMid ks m m).heap m ⟨ks.getD m 0, 3, true, true, 0⟩
        allocs := [] } : World) = dupFail ks m := by
      apply World.ext'
      · funext i
        show hset (dupMid ks m m).heap m ⟨ks.getD m 0, 3, true, true, 0⟩ i
          = (dupFail ks m).heap i
        by_cases hi : i = m
        · subst hi
          rw [hset_self]
          simp [dupFail, le_refl]
        · rw [hset_ne _ _ _ _ hi]
          simp only [dupMid, dupFail]
          by_cases h1 : i < m
          · simp [h1, le_of_lt h1]
          · simp [h1, show ¬ i ≤ m from by omega]
      · rfl
      · rfl
      · rfl
      · rfl
    rw [scanBucket]
    simp only [mkNode, p1, p2, p3, p4, p5, p6, p7, interpCB, hlink,
      CMP_MATCH, CMP_STOP, hbump]
    norm_num
    simp only [List.getD_eq_getElem?_getD] at hworld
    exact hworld
  | succ d ih =>
    intro m hmj
    have hm : m < j := by omega
    have hn : ks.length - m = (ks.length - (m + 1)) + 1 := by omega
    rw [hn, List.range'_succ, List.map_cons]
    have hlink := dupLinkStep ks j m hm hj
    rw [scanBucket]
    simp only [mkNode, p1, p2, p3, p4, p5, p6, p7, interpCB, hlink,
      CMP_MATCH, CMP_STOP]
    norm_num
    rw [ih (m + 1) (by omega)]
    exact ⟨rfl, rfl⟩

/-- One step of the unlink-everything sweep over the stale clone bucket:
removing node `m` decrements the element count and releases the clone's
payload reference. -/
theorem emptyStep (ks : List Int) (j m : Nat) (hm : m < j)
    (hmn : m < ks.length) :
    ({ updateCont (emptyMid ks j m) 1
        (fun c => { c with elements := c.elements - 1 }) with
      heap := (internal_ao2_ref (updateCont (emptyMid ks j m) 1
        (fun c => { c with elements := c.elements - 1 })).heap m (-1)).2 }
      : World)
    = emptyMid ks j (m + 1) := by
  have hup : updateCont (emptyMid ks j m) 1
      (fun c => { c with elements := c.elements - 1 })
      = { emptyMid ks j m with
          conts := setCont (emptyMid ks j m).conts 1
            { cloneCont j with elements := (j : Int) - (m : Int) - 1 } } := rfl
  rw [hup]
  apply World.ext'
  · show (internal_ao2_ref (emptyMid ks j m).heap m (-1)).2
      = (emptyMid ks j (m + 1)).heap
    rw [internal_ao2_ref]
    rw [show (emptyMid ks j m).heap m = some ⟨ks.getD m 0, 3, true, true, 0⟩
      from by simp [emptyMid, lt_irrefl m, hm]]
    norm_num
    funext i
    by_cases hi : i = m
    · subst hi
      rw [hset_self]
      simp [emptyMid, Nat.lt_succ_self]
    · rw [hset_ne _ _ _ _ hi]
      simp only [emptyMid]
      by_cases h1 : i < m
      · simp [h1, show i < m + 1 from by omega]
      · simp [h1, show ¬ i < m + 1 from by omega]
  · rfl
  · show setCont (emptyMid ks j m).conts 1
      { cloneCont j with elements := (j : Int) - (m : Int) - 1 }
      = (emptyMid ks j (m + 1)).conts
    show setCont (setCont (setCont (fun _ => none) 0 (srcCont ks.length)) 1
      { cloneCont j with elements := (j : Int) - (m : Int) }) 1
      { cloneCont j with elements := (j : Int) - (m : Int) - 1 }
      = setCont (setCont (fun _ => none) 0 (srcCont ks.length)) 1
        { cloneCont j with elements := (j : Int) - ((m + 1 : Nat) : Int) }
    rw [setCont_setCont]
    simp only [HashCont.mk.injEq]
    norm_num
    ring
  · rfl
  · rfl

/-- The unlink-everything sweep over the stale clone bucket: every node
from `m` on is removed, the element count falls to zero and every clone
payload reference is released; nothing is returned (OBJ_NODATA). -/
theorem scanUnlinkAll (ks : List Int) (j : Nat) (hjn : j ≤ ks.length) :
    ∀ (d m : Nat), m + d = j →
      scanBucket unlinkAllCtx ((List.range' m d).map mkNode)
        ⟨emptyMid ks j m, none, []⟩
      = ([], ⟨emptyMid ks j j, none, []⟩, false) := by
  have q1 : unlinkAllCtx.sortFn = (none : Option (Int → Int → Int)) := rfl
  have q2 : unlinkAllCtx.cb = CBCode.cbTrue := rfl
  have q3 : unlinkAllCtx.flags.descending = false := rfl
  have q4 : unlinkAllCtx.flags.nodata = true := rfl
  have q5 : unlinkAllCtx.flags.multiple = true := rfl
  have q6 : unlinkAllCtx.flags.unlink = true := rfl
  have q7 : unlinkAllCtx.cid = 1 := rfl
  intro d
  induction d with
  | zero =>
    intro m hmj
    rw [Nat.add_zero] at hmj
    subst hmj
    rfl
  | succ d ih =>
    intro m hmj
    have hm : m < j := by omega
    have hmn : m < ks.length := lt_of_lt_of_le hm hjn
    rw [List.range'_succ, List.map_cons, scanBucket]
    simp only [mkNode, q1, q2, q3, q4, q5, q6, q7, interpCB,
      CMP_MATCH, CMP_STOP]
    norm_num
    rw [emptyStep ks j m hm hmn]
    rw [ih (m + 1) (by omega)]

/-- The whole copying traversal of a failing `ao2_container_dup`: it
returns payload `j` (the one whose link failed) with an extra reference
and leaves the source container untouched. -/
theorem dupTraverse (ks : List Int) (j : Nat) (hj : j < ks.length) :
    ao2_callback (dupMid ks j 0) 0 SFlags.none (some CBCode.dupObj)
      (CArg.byCont 1)
    = (some j, [], dupFail ks j) := by
  have hb : (((srcCont ks.length).buckets.get? 0).getD [])
      = (List.range' 0 (ks.length - 0)).map mkNode := by
    show (List.range ks.length).map mkNode = _
    rw [Nat.sub_zero, List.range_eq_range']
  have hst : traverseBuckets dupCtx [0] ⟨dupMid ks j 0, none, []⟩
      = ⟨dupFail ks j, some j, []⟩ := by
    have hc : (⟨dupMid ks j 0, none, []⟩ : TravSt).w.conts dupCtx.cid
        = some (srcCont ks.length) := rfl
    rw [traverseBuckets, traverseOneBucket, hc]
    simp only [show dupCtx.flags.descending = false from rfl,
      Bool.false_eq_true, if_false]
    rw [hb]
    rw [scanDup ks j hj j 0 (by omega)]
    simp only
    rw [updateCont_self (dupFail ks j) dupCtx.cid (srcCont ks.length) rfl
      (fun c => { c with
        buckets := c.buckets.set 0 ((List.range' 0 (ks.length - 0)).map mkNode) })
      (by show ({ srcCont ks.length with
            buckets := (srcCont ks.length).buckets.set 0
              ((List.range' 0 (ks.length - 0)).map mkNode) } : HashCont)
            = srcCont ks.length
          rw [show (List.range' 0 (ks.length - 0)).map mkNode
            = (List.range ks.length).map mkNode
            from by rw [Nat.sub_zero, List.range_eq_range']]
          rfl)]
    rw [if_pos trivial]
  show ((traverseBuckets dupCtx [0] ⟨dupMid ks j 0, none, []⟩).ret,
        (traverseBuckets dupCtx [0] ⟨dupMid ks j 0, none, []⟩).multi,
        (traverseBuckets dupCtx [0] ⟨dupMid ks j 0, none, []⟩).w)
      = (some j, [], dupFail ks j)
  rw [hst]

/-- The rollback traversal of a failed `ao2_container_dup`: the
unlink-everything sweep over the clone empties its bucket, zeroes its
element count and drops every clone payload reference. -/
theorem emptySweep (ks : List Int) (j : Nat) (hjn : j ≤ ks.length) :
    ao2_callback (emptyMid ks j 0) 1 flagsUnlinkAll Option.none CArg.noArg
      = (none, [], emptyDest ks) := by
  have hb : ((({ cloneCont j with
      elements := (j : Int) - ((0 : Nat) : Int) } : HashCont).buckets.get?
        0).getD [])
      = (List.range' 0 j).map mkNode := by
    show (List.range j).map mkNode = _
    rw [List.range_eq_range']
  have hup : updateCont (emptyMid ks j j) 1
      (fun c => { c with buckets := c.buckets.set 0 ([] : Bucket) })
      = emptyDest ks := by
    have h1 : updateCont (emptyMid ks j j) 1
        (fun c => { c with buckets := c.buckets.set 0 ([] : Bucket) })
        = { emptyMid ks j j with
            conts := setCont (emptyMid ks j j).conts 1
              { cloneCont j with
                  elements := (j : Int) - (j : Int)
                  buckets := [([] : Bucket)] } } := rfl
    rw [h1]
    apply World.ext'
    · funext i
      show (emptyMid ks j j).heap i = (emptyDest ks).heap i
      simp only [emptyMid, emptyDest]
      by_cases h1 : i < j
      · simp [h1, lt_of_lt_of_le h1 hjn]
      · simp [h1]
    · rfl
    · show setCont (setCont (setCont (fun _ => none) 0 (srcCont ks.length)) 1
        { cloneCont j with elements := (j : Int) - (j : Int) }) 1
        { cloneCont j with
            elements := (j : Int) - (j : Int)
            buckets := [([] : Bucket)] }
        = setCont (setCont (fun _ => none) 0 (srcCont ks.length)) 1
          (cloneCont 0)
      rw [setCont_setCont]
      simp only [HashCont.mk.injEq, cloneCont]
      norm_num
    · rfl
    · rfl
  have hst : traverseBuckets unlinkAllCtx [0] ⟨emptyMid ks j 0, none, []⟩
      = ⟨emptyDest ks, none, []⟩ := by
    have hc : (⟨emptyMid ks j 0, none, []⟩ : TravSt).w.conts unlinkAllCtx.cid
        = some { cloneCont j with
            elements := (j : Int) - ((0 : Nat) : Int) } := rfl
    rw [traverseBuckets, traverseOneBucket, hc]
    simp only [show unlinkAllCtx.flags.descending = false from rfl,
      Bool.false_eq_true, if_false]
    rw [hb]
    rw [show (List.range' 0 j).map mkNode
      = (List.range' 0 j).map mkNode from rfl]
    rw [scanUnlinkAll ks j hjn j 0 (by omega)]
    simp only
    rw [show unlinkAllCtx.cid = 1 from rfl, hup]
    rw [if_neg (by simp)]
    rfl
  show ((traverseBuckets unlinkAllCtx [0] ⟨emptyMid ks j 0, none, []⟩).ret,
        (traverseBuckets unlinkAllCtx [0] ⟨emptyMid ks j 0, none, []⟩).multi,
        (traverseBuckets unlinkAllCtx [0] ⟨emptyMid ks j 0, none, []⟩).w)
      = (none, [], emptyDest ks)
  rw [hst]

/-- A failing `ao2_container_dup` run: report -1, release the returned
payload and sweep the clone empty, restoring every payload to its
pre-dup state. -/
theorem dupRun (ks : List Int) (j : Nat) (hj : j < ks.length) :
    ao2_container_dup (dupMid ks j 0) 1 0 = (-1, emptyDest ks) := by
  have hunref : (internal_ao2_ref (dupFail ks j).heap j (-1)).2
      = hset (dupFail ks j).heap j ⟨ks.getD j 0, 2, true, true, 0⟩ := by
    rw [internal_ao2_ref]
    rw [show (dupFail ks j).heap j = some ⟨ks.getD j 0, 3, true, true, 0⟩
      from by simp [dupFail]]
    norm_num
  have hw2 : ({ dupFail ks j with
      heap := hset (dupFail ks j).heap j ⟨ks.getD j 0, 2, true, true, 0⟩ }
        : World)
      = emptyMid ks j 0 := by
    apply World.ext'
    · funext i
      show hset (dupFail ks j).heap j ⟨ks.getD j 0, 2, true, true, 0⟩ i
        = (emptyMid ks j 0).heap i
      by_cases hi : i = j
      · subst hi
        rw [hset_self]
        simp [emptyMid, lt_irrefl, hj]
      · rw [hset_ne _ _ _ _ hi]
        simp only [dupFail, emptyMid]
        by_cases h1 : i < j
        · simp [le_of_lt h1, h1]
        · simp [show ¬ i ≤ j from by omega, h1]
    · rfl
    · rfl
    · rfl
    · rfl
  rw [ao2_container_dup, dupTraverse ks j hj]
  simp only
  rw [hunref, hw2, emptySweep ks j (le_of_lt hj)]

/-- Releasing the emptied clone destroys it: the destructor sweep finds
nothing to unlink and the container dies with zero elements. -/
theorem cloneRelease (ks : List Int) :
    (ao2_ref_cont (emptyDest ks) 1 (-1)).2 = rolledBackWorld ks := by
  have h1 : (ao2_ref_cont (emptyDest ks) 1 (-1)).2
      = { emptyDest ks with
          conts := setCont (setCont (setCont (setCont (emptyDest ks).conts 1
            { cloneCont 0 with ref := 0 }) 1
            { cloneCont 0 with ref := 0, destroying := true }) 1
            { cloneCont 0 with ref := 0, destroying := true }) 1
            deadCloneCont } := rfl
  rw [h1]
  apply World.ext'
  · rfl
  · rfl
  · show setCont (setCont (setCont (setCont (emptyDest ks).conts 1
        { cloneCont 0 with ref := 0 }) 1
        { cloneCont 0 with ref := 0, destroying := true }) 1
        { cloneCont 0 with ref := 0, destroying := true }) 1
        deadCloneCont
      = (rolledBackWorld ks).conts
    rw [setCont_setCont, setCont_setCont, setCont_setCont]
    show setCont (setCont (setCont (fun _ => none) 0 (srcCont ks.length)) 1
      (cloneCont 0)) 1 deadCloneCont
      = setCont (setCont (fun _ => none) 0 (srcCont ks.length)) 1
        deadCloneCont
    rw [setCont_setCont]
  · rfl
  · rfl

/-- A failing clone end to end: allocate the empty clone, fail the copy,
release the clone. -/
theorem cloneRun (ks : List Int) (j : Nat) (hj : j < ks.length) :
    ao2_container_clone
      (srcWorld ks (List.replicate (j + 1) true ++ [false])) 0
      = (none, rolledBackWorld ks) := by
  have halloc : hash_ao2_alloc_empty_clone
      (srcWorld ks (List.replicate (j + 1) true ++ [false])) 0
      = (some 1, dupMid ks j 0) := by
    have h1 : hash_ao2_alloc_empty_clone
        (srcWorld ks (List.replicate (j + 1) true ++ [false])) 0
        = (some 1,
           { srcWorld ks (List.replicate (j + 1) true ++ [false]) with
              conts := setCont
                (srcWorld ks (List.replicate (j + 1) true ++ [false])).conts 1
                (cloneCont 0)
              nextCont := 2
              allocs := List.replicate j true ++ [false] }) := rfl
    rw [h1]
    simp only [Prod.mk.injEq, true_and]
    apply World.ext'
    · funext i
      show (if i < ks.length then some ⟨ks.getD i 0, 2, true, true, 0⟩
            else none)
        = (dupMid ks j 0).heap i
      simp [dupMid, Nat.not_lt_zero]
    · rfl
    · rfl
    · rfl
    · rfl
  rw [ao2_container_clone]
  rw [show (srcWorld ks (List.replicate (j + 1) true ++ [false])).conts 0
    = some (srcCont ks.length) from rfl]
  simp only [halloc]
  rw [dupRun ks j hj]
  norm_num
  rw [if_neg (show ¬ (srcCont ks.length).alive = false from by
    rw [show (srcCont ks.length).alive = true from rfl]
    simp)]
  rw [cloneRelease ks]

/-- The source's sorted insert walk consults the callback only on
node-pointer operands: two callbacks agreeing on node pairs drive the
walk identically, whatever they would say about payloads or keys. -/
theorem insertFwdSrc_nodes_only (sf sg : SortArg → SortArg → Int)
    (hagree : ∀ x y, sf (SortArg.nodeArg x) (SortArg.nodeArg y)
      = sg (SortArg.nodeArg x) (SortArg.nodeArg y))
    (dups : DupOpt) (node : SNode) :
    ∀ b : List SNode,
      insertFwdSrc sf dups node b = insertFwdSrc sg dups node b := by
  intro b
  induction b with
  | nil => rfl
  | cons cur rest ih =>
    simp only [insertFwdSrc]
    rw [ih, hagree cur.nid node.nid]

/-! ### end-lemma-block -/

/-! ### Claims -/


/-- C7: after an unlink(c,o) has succeeded in removing the object — so
that no node of the container holds `o` any more, the situation the
hypotheses describe — repeating `unlink(c,o)` has no effect whatsoever:
`ao2_match_by_addr` matches no node, nothing is unlinked, and in
particular the element count is not decremented (never below zero: an
unlink that finds no matching node decrements nothing). -/
theorem C7_idempotent_unlink (w1 : World) (cid oid : Nat) (flags : SFlags)
    (c : HashCont) (hc : w1.conts cid = some c)
    (hgone : ∀ b ∈ c.buckets, ∀ n ∈ b, n.obj ≠ some oid) :
    ao2_unlink w1 cid oid flags = w1 ∧
    ((ao2_unlink w1 cid oid flags).conts cid).map HashCont.elements
      = (w1.conts cid).map HashCont.elements := by
  have hid : ao2_unlink w1 cid oid flags = w1 := by
    rw [ao2_unlink]
    cases hv : validObj w1 oid with
    | false => simp
    | true =>
      simp only [if_true]
      rw [ao2_callback, hc]
      cases hal : c.alive with
      | false => simp [hal]
      | true =>
        simp only [hal, if_true]
        rw [hash_ao2_callback, hc]
        simp only [Bool.true_or, if_true, Option.getD_some]
        rw [traverseNoMatch
          ⟨cid, { flags with unlink := true, pointer := true, nodata := true },
            CBCode.matchByAddr, CArg.byObj oid, c.sortFn,
            argKeyOf w1 (CArg.byObj oid)⟩
          oid rfl rfl _ ⟨w1, Option.none, []⟩ c hc hgone]
  exact ⟨hid, by rw [hid]⟩


/-- Witness for C7: unlink the only object, then unlink it again; the
second unlink is the identity and the count stays 0. -/
theorem C7_witness :
    ((ao2_unlink c7World 0 0 SFlags.none).conts 0 = some c7Gone ∧
      (∀ b ∈ c7Gone.buckets, ∀ n ∈ b, n.obj ≠ some 0)) ∧
    (ao2_unlink (ao2_unlink c7World 0 0 SFlags.none) 0 0 SFlags.none
        = ao2_unlink c7World 0 0 SFlags.none ∧
      ((ao2_unlink (ao2_unlink c7World 0 0 SFlags.none) 0 0
          SFlags.none).conts 0).map HashCont.elements
        = ((ao2_unlink c7World 0 0 SFlags.none).conts 0).map
            HashCont.elements) :=
  ⟨⟨rfl, by decide⟩,
   C7_idempotent_unlink (ao2_unlink c7World 0 0 SFlags.none) 0 0 SFlags.none
     c7Gone rfl (by decide)⟩


/-- C4: clone failure atomicity.  When the node allocation for the
`j`-th copy fails during `__ao2_container_clone`, the call returns null
and the rollback restores the nothing-happened state: the partially
built clone is emptied (element count zero) and destroyed, the source
container is unchanged, and every payload's state — refcount included —
is exactly as before the call. -/
theorem C4_clone_rollback (ks : List Int) (j : Nat) (hj : j < ks.length) :
    ao2_container_clone
      (srcWorld ks (List.replicate (j + 1) true ++ [false])) 0
      = (none, rolledBackWorld ks)
    ∧ (rolledBackWorld ks).conts 0
        = (srcWorld ks (List.replicate (j + 1) true ++ [false])).conts 0
    ∧ (∀ i, (rolledBackWorld ks).heap i
        = (srcWorld ks (List.replicate (j + 1) true ++ [false])).heap i)
    ∧ (rolledBackWorld ks).conts 1 = some deadCloneCont
    ∧ deadCloneCont.elements = 0
    ∧ deadCloneCont.alive = false :=
  ⟨cloneRun ks j hj, rfl, fun _ => rfl, rfl, rfl, rfl⟩

/-- C4 witness: a two-payload source whose second copy fails. -/
theorem C4_witness :
    1 < ([5, 7] : List Int).length
    ∧ (ao2_container_clone
        (srcWorld [5, 7] (List.replicate (1 + 1) true ++ [false])) 0
        = (none, rolledBackWorld [5, 7])
      ∧ (rolledBackWorld [5, 7]).conts 0
          = (srcWorld [5, 7] (List.replicate (1 + 1) true ++ [false])).conts 0
      ∧ (∀ i, (rolledBackWorld [5, 7]).heap i
          = (srcWorld [5, 7]
              (List.replicate (1 + 1) true ++ [false])).heap i)
      ∧ (rolledBackWorld [5, 7]).conts 1 = some deadCloneCont
      ∧ deadCloneCont.elements = 0
      ∧ deadCloneCont.alive = false) :=
  ⟨by decide, C4_clone_rollback [5, 7] 1 (by decide)⟩

/-- C3 (code bug): the sorted insert walk hands the sort callback the
two bucket-node pointers (`sort_fn(cur, node, OBJ_POINTER)`,
astobj2.c:1597; same call at :1565), not the held payloads the callback
convention expects (`ao2_reg_sort_cb` at astobj2.c:2550 reads its left
argument as a payload).  So (i) the walk's outcome depends only on the
callback's behaviour on node operands — payload keys are never read;
(ii) with equal-key payloads, REPLACE fails to replace whenever the
node comparison is negative, appending the new node instead; (iii)
REPLACE swaps whenever the node comparison is zero, whatever the keys;
while (iv) the spec's payload-key walk (`insertFwd`) with a
key-difference comparator does swap on key equality. -/
theorem C3_replace_node_pointer_bug (sf sg : SortArg → SortArg → Int)
    (h : Heap) (n0 n1 o0 o1 : Nat)
    (hsf : sf (SortArg.nodeArg n0) (SortArg.nodeArg n1) < 0)
    (hsg : sg (SortArg.nodeArg n0) (SortArg.nodeArg n1) = 0)
    (hkeys : nodeKey h ⟨some o0⟩ = nodeKey h ⟨some o1⟩) :
    (∀ (sf' : SortArg → SortArg → Int) (dups : DupOpt) (node : SNode)
        (b : List SNode),
      (∀ x y, sf (SortArg.nodeArg x) (SortArg.nodeArg y)
        = sf' (SortArg.nodeArg x) (SortArg.nodeArg y)) →
      insertFwdSrc sf dups node b = insertFwdSrc sf' dups node b)
    ∧ insertFwdSrc sf DupOpt.replace ⟨n1, some o1⟩ [⟨n0, some o0⟩]
        = SInsertRes.inserted [⟨n0, some o0⟩, ⟨n1, some o1⟩]
    ∧ insertFwdSrc sg DupOpt.replace ⟨n1, some o1⟩ [⟨n0, some o0⟩]
        = SInsertRes.replaced [⟨n0, some o1⟩] ⟨n1, some o0⟩
    ∧ insertFwd h DupOpt.replace (fun a b => a - b) ⟨some o1⟩ [⟨some o0⟩]
        = InsertRes.replaced [⟨some o1⟩] ⟨some o0⟩ := by
  refine ⟨fun sf' dups node b hag =>
    insertFwdSrc_nodes_only sf sf' hag dups node b, ?_, ?_, ?_⟩
  · simp only [insertFwdSrc]
    rw [if_pos hsf]
  · simp only [insertFwdSrc]
    rw [if_neg (by rw [hsg]; decide), if_neg (by rw [hsg]; decide)]
  · have hc : nodeKey h ⟨some o0⟩ - nodeKey h ⟨some o1⟩ = 0 := by
      rw [hkeys]
      ring
    simp only [insertFwd, hc]
    norm_num

/-- C3 witness: two key-7 payloads; a callback returning -1 on the node
pair makes the REPLACE link keep both nodes, one returning 0 makes it
swap; the spec-side payload-key walk swaps. -/
theorem C3_bug_witness :
    ((fun _ _ => (-1 : Int)) (SortArg.nodeArg 0) (SortArg.nodeArg 1) < 0)
    ∧ ((fun _ _ => (0 : Int)) (SortArg.nodeArg 0) (SortArg.nodeArg 1) = 0)
    ∧ nodeKey (hset (hset emptyHeap 0 (freshPObj 7 true)) 1
          (freshPObj 7 true)) ⟨some 0⟩
        = nodeKey (hset (hset emptyHeap 0 (freshPObj 7 true)) 1
          (freshPObj 7 true)) ⟨some 1⟩
    ∧ ((∀ (sf' : SortArg → SortArg → Int) (dups : DupOpt) (node : SNode)
          (b : List SNode),
        (∀ x y, (fun _ _ => (-1 : Int)) (SortArg.nodeArg x)
            (SortArg.nodeArg y)
          = sf' (SortArg.nodeArg x) (SortArg.nodeArg y)) →
        insertFwdSrc (fun _ _ => (-1 : Int)) dups node b
          = insertFwdSrc sf' dups node b)
      ∧ insertFwdSrc (fun _ _ => (-1 : Int)) DupOpt.replace ⟨1, some 1⟩
          [⟨0, some 0⟩]
          = SInsertRes.inserted [⟨0, some 0⟩, ⟨1, some 1⟩]
      ∧ insertFwdSrc (fun _ _ => (0 : Int)) DupOpt.replace ⟨1, some 1⟩
          [⟨0, some 0⟩]
          = SInsertRes.replaced [⟨0, some 1⟩] ⟨1, some 0⟩
      ∧ insertFwd (hset (hset emptyHeap 0 (freshPObj 7 true)) 1
            (freshPObj 7 true)) DupOpt.replace (fun a b => a - b)
          ⟨some 1⟩ [⟨some 0⟩]
          = InsertRes.replaced [⟨some 1⟩] ⟨some 0⟩) :=
  ⟨by decide, by decide, by decide,
   C3_replace_node_pointer_bug (fun _ _ => (-1 : Int)) (fun _ _ => (0 : Int))
     (hset (hset emptyHeap 0 (freshPObj 7 true)) 1 (freshPObj 7 true))
     0 1 0 1 (by decide) (by decide) (by decide)⟩

/-- C6 (code bug): bucket order is not governed by payload keys in this
source.  The insert walk compares bucket-node pointers (astobj2.c:1597),
so with a callback whose node comparison is negative a smaller-key
payload is appended after a larger-key one — the resulting bucket's key
sequence decreases — while the spec's payload-key walk (`insertFwd`)
with a key-difference comparator sorts the pair.  With per-bucket order
broken, the claimed non-decreasing full ascending traversal fails with
it. -/
theorem C6_bucket_order_node_pointer_bug (sf : SortArg → SortArg → Int)
    (h : Heap) (n0 n1 o0 o1 : Nat)
    (hsf : sf (SortArg.nodeArg n0) (SortArg.nodeArg n1) < 0)
    (hkey : nodeKey h ⟨some o1⟩ < nodeKey h ⟨some o0⟩) :
    insertFwdSrc sf DupOpt.allow ⟨n1, some o1⟩ [⟨n0, some o0⟩]
      = SInsertRes.inserted [⟨n0, some o0⟩, ⟨n1, some o1⟩]
    ∧ ¬ nodeKey h ⟨some o0⟩ ≤ nodeKey h ⟨some o1⟩
    ∧ insertFwd h DupOpt.allow (fun a b => a - b) ⟨some o1⟩ [⟨some o0⟩]
        = InsertRes.inserted [⟨some o1⟩, ⟨some o0⟩] := by
  refine ⟨?_, not_le.mpr hkey, ?_⟩
  · simp only [insertFwdSrc]
    rw [if_pos hsf]
  · have hc : 0 < nodeKey h ⟨some o0⟩ - nodeKey h ⟨some o1⟩ :=
      sub_pos.mpr hkey
    simp only [insertFwd]
    rw [if_neg (not_lt.mpr (le_of_lt hc)), if_pos hc]

/-- C6 witness: payloads with keys 5 (id 0, stored) and 3 (id 1, new); a
callback returning -1 on the node pair appends the key-3 payload after
the key-5 one, leaving the bucket key sequence decreasing, while the
spec-side walk sorts them. -/
theorem C6_bug_witness :
    ((fun _ _ => (-1 : Int)) (SortArg.nodeArg 0) (SortArg.nodeArg 1) < 0)
    ∧ nodeKey (hset (hset emptyHeap 0 (freshPObj 5 true)) 1
          (freshPObj 3 true)) ⟨some 1⟩
        < nodeKey (hset (hset emptyHeap 0 (freshPObj 5 true)) 1
          (freshPObj 3 true)) ⟨some 0⟩
    ∧ (insertFwdSrc (fun _ _ => (-1 : Int)) DupOpt.allow ⟨1, some 1⟩
          [⟨0, some 0⟩]
          = SInsertRes.inserted [⟨0, some 0⟩, ⟨1, some 1⟩]
      ∧ ¬ nodeKey (hset (hset emptyHeap 0 (freshPObj 5 true)) 1
            (freshPObj 3 true)) ⟨some 0⟩
          ≤ nodeKey (hset (hset emptyHeap 0 (freshPObj 5 true)) 1
            (freshPObj 3 true)) ⟨some 1⟩
      ∧ insertFwd (hset (hset emptyHeap 0 (freshPObj 5 true)) 1
            (freshPObj 3 true)) DupOpt.allow (fun a b => a - b)
          ⟨some 1⟩ [⟨some 0⟩]
          = InsertRes.inserted [⟨some 1⟩, ⟨some 0⟩]) :=
  ⟨by decide, by decide,
   C6_bucket_order_node_pointer_bug (fun _ _ => (-1 : Int))
     (hset (hset emptyHeap 0 (freshPObj 5 true)) 1 (freshPObj 3 true))
     0 1 0 1 (by decide) (by decide)⟩

/-! ### end-claims -/

/-- C1 (counterexample to the claim as stated).  The claim quantifies
over every sequence of `n` bumps and `m` releases with `n - m > 0` and
asserts the destructor does not run and `bump(h,0) = 1 + n - m`; it also
asserts the destructor runs when `n - m` reaches 0.  Both parts fail on
the code: (i) the sequence release-bump-bump has `n = 2`, `m = 1`,
`n - m = 1 > 0`, yet its first release already drives the count to zero,
so the destructor fires and `bump(h,0)` thereafter returns -1, not 2;
(ii) the sequence bump-release has `n - m = 0`, yet the count merely
returns to 1: the object is alive, the destructor has not run, and
`bump(h,0)` returns 1, not -1. -/
theorem C1_counterexample :
    (bumps [-1, 1, 1] = 2 ∧ rels [-1, 1, 1] = 1 ∧
      (runOps oneObjHeap 0 [-1, 1, 1] 0).map PObj.dtorRuns = some 1 ∧
      (internal_ao2_ref (runOps oneObjHeap 0 [-1, 1, 1]) 0 0).1 = -1) ∧
    (bumps [1, -1] = 1 ∧ rels [1, -1] = 1 ∧
      (runOps oneObjHeap 0 [1, -1] 0).map PObj.dtorRuns = some 0 ∧
      (internal_ao2_ref (runOps oneObjHeap 0 [1, -1]) 0 0).1 = 1) := by
  decide

/-- C1 (amended).  For every handle obtained from `allocate`,
immediately after allocation `bump(h,0)` returns 1.  For every sequence
of `n` bumps and `m` releases in which every proper prefix keeps the
count positive (releases so far never exceed bumps so far): while
`m : n` (count `1 + n - m` still positive) the destructor has not been
invoked, the object is alive and `bump(h,0)` returns `1 + n - m`; and
when the count `1 + n - m` reaches 0 (that is, `m = n + 1`), the
destructor is invoked exactly once and any subsequent `bump(h,0)`
returns -1 because destruction zeroes the magic. -/
theorem C1_refcount_lifecycle (h : Heap) (oid : Nat) (k : Int)
    (ops : List Int)
    (hget : h oid = some (freshPObj k true))
    (hops : ∀ d ∈ ops, d = 1 ∨ d = -1)
    (hpref : ∀ j, j < ops.length →
      (rels (ops.take j) : Int) ≤ (bumps (ops.take j) : Int)) :
    (internal_ao2_ref h oid 0).1 = 1 ∧
    ((rels ops : Int) ≤ (bumps ops : Int) →
      runOps h oid ops oid
        = some ⟨k, 1 + (bumps ops : Int) - (rels ops : Int), true, true, 0⟩ ∧
      (internal_ao2_ref (runOps h oid ops) oid 0).1
        = 1 + (bumps ops : Int) - (rels ops : Int)) ∧
    ((rels ops : Int) = (bumps ops : Int) + 1 →
      runOps h oid ops oid = some ⟨k, 0, true, false, 1⟩ ∧
      (internal_ao2_ref (runOps h oid ops) oid 0).1 = -1 ∧
      (∀ more : List Int,
        runOps (runOps h oid ops) oid more oid = some ⟨k, 0, true, false, 1⟩ ∧
        (internal_ao2_ref (runOps (runOps h oid ops) oid more) oid 0).1 = -1)) := by
  have hbal : ∀ l : List Int, (∀ d ∈ l, d = 1 ∨ d = -1) →
      bal l = (bumps l : Int) - (rels l : Int) := bal_eq_counts
  refine ⟨by simp [internal_ao2_ref, hget, freshPObj], ?_, ?_⟩
  · intro hle
    have hfull : ∀ j, j ≤ ops.length → 0 < (freshPObj k true).ref + bal (ops.take j) := by
      intro j hj
      have hopsj : ∀ d ∈ ops.take j, d = 1 ∨ d = -1 :=
        fun d hd => hops d (List.take_subset j ops hd)
      rw [hbal _ hopsj]
      rcases Nat.lt_or_ge j ops.length with hlt | hge
      · have := hpref j hlt
        simp [freshPObj]
        omega
      · have hjeq : j = ops.length := le_antisymm hj hge
        rw [hjeq, List.take_length]
        simp [freshPObj]
        omega
    have hrun := runOps_live ops h oid (freshPObj k true) hget rfl hops hfull
    rw [hbal ops hops] at hrun
    have hobj : runOps h oid ops oid
        = some ⟨k, 1 + (bumps ops : Int) - (rels ops : Int), true, true, 0⟩ := by
      rw [hrun]
      simp [freshPObj]
      ring
    refine ⟨hobj, ?_⟩
    simp [internal_ao2_ref, hobj]
  · intro heq
    have hne : ops ≠ [] := by
      intro hnil
      rw [hnil] at heq
      simp [bumps, rels] at heq
    -- split off the final operation: it must be the release that kills
    -- the object
    have hsplit : ops.dropLast ++ [ops.getLast hne] = ops :=
      List.dropLast_append_getLast hne
    set init := ops.dropLast with hinit
    set l := ops.getLast hne with hl
    have hinit_take : init = ops.take (ops.length - 1) := by
      rw [hinit, List.dropLast_eq_take]
    have hlen : init.length = ops.length - 1 := by
      rw [hinit, List.length_dropLast]
    have hlmem : l ∈ ops := List.getLast_mem hne
    have hlval : l = 1 ∨ l = -1 := hops l hlmem
    have hops_init : ∀ d ∈ init, d = 1 ∨ d = -1 := by
      intro d hd
      exact hops d (by rw [← hsplit]; exact List.mem_append_left _ hd)
    have hcnt_b : bumps ops = bumps init + bumps [l] := by
      rw [← hsplit, bumps, bumps, bumps, List.count_append]
    have hcnt_r : rels ops = rels init + rels [l] := by
      rw [← hsplit, rels, rels, rels, List.count_append]
    have hpref_init : (rels init : Int) ≤ (bumps init : Int) := by
      have h0 : 0 < ops.length := List.length_pos.mpr hne
      have := hpref (ops.length - 1) (by omega)
      rw [← hinit_take] at this
      exact this
    have hlneg : l = -1 ∧ (rels init : Int) = (bumps init : Int) := by
      rcases hlval with h1 | h1
      · exfalso
        rw [h1] at hcnt_b hcnt_r
        have e1 : bumps [(1 : Int)] = 1 := by decide
        have e2 : rels [(1 : Int)] = 0 := by decide
        rw [e1] at hcnt_b
        rw [e2] at hcnt_r
        omega
      · refine ⟨h1, ?_⟩
        rw [h1] at hcnt_b hcnt_r
        have e1 : bumps [(-1 : Int)] = 0 := by decide
        have e2 : rels [(-1 : Int)] = 1 := by decide
        rw [e1] at hcnt_b
        rw [e2] at hcnt_r
        omega
    have hfull_init : ∀ j, j ≤ init.length →
        0 < (freshPObj k true).ref + bal (init.take j) := by
      intro j hj
      have hops_tj : ∀ d ∈ init.take j, d = 1 ∨ d = -1 :=
        fun d hd => hops_init d (List.take_subset j init hd)
      rw [hbal _ hops_tj]
      have htt : init.take j = ops.take j := by
        rw [hinit_take, List.take_take]
        congr 1
        omega
      rcases Nat.lt_or_ge j init.length with hlt | hge
      · have := hpref j (by omega)
        rw [← htt] at this
        simp [freshPObj]
        omega
      · have hjeq : j = init.length := le_antisymm hj hge
        rw [hjeq, List.take_length]
        have := hlneg.2
        simp [freshPObj]
        omega
    have hrun := runOps_live init h oid (freshPObj k true) hget rfl hops_init
      hfull_init
    have hbal_init : bal init = 0 := by
      rw [hbal _ hops_init, hlneg.2]
      ring
    rw [hbal_init] at hrun
    have hrun1 : runOps h oid init oid = some ⟨k, 1, true, true, 0⟩ := by
      rw [hrun]; simp [freshPObj]
    have happ : runOps h oid ops = runOps (runOps h oid init) oid [l] := by
      rw [← hsplit, runOps, runOps, runOps, List.foldl_append]
    have hkill : runOps (runOps h oid init) oid [l] oid
        = some ⟨k, 0, true, false, 1⟩ := by
      rw [hlneg.1]
      show (internal_ao2_ref (runOps h oid init) oid (-1)).2 oid = _
      rw [internal_ao2_ref]
      rw [hrun1]
      norm_num [destroyedPObj, hset_self]
    have hdead : runOps h oid ops oid = some ⟨k, 0, true, false, 1⟩ := by
      rw [happ, hkill]
    refine ⟨hdead, by simp [internal_ao2_ref, hdead], ?_⟩
    intro more
    have hstay := runOps_dead more (runOps h oid ops) oid ⟨k, 0, true, false, 1⟩
      hdead rfl
    rw [hstay]
    exact ⟨hdead, by simp [internal_ao2_ref, hdead]⟩

/-- Witness for C1: the amended lifecycle at the concrete sequence
bump-release-release on a fresh handle (the count passes 2, 1 and dies
at 0). -/
theorem C1_witness :
    (oneObjHeap 0 = some (freshPObj 0 true)) ∧
    ((rels [1, -1, -1] : Int) = (bumps [1, -1, -1] : Int) + 1 →
      runOps oneObjHeap 0 [1, -1, -1] 0 = some ⟨0, 0, true, false, 1⟩ ∧
      (internal_ao2_ref (runOps oneObjHeap 0 [1, -1, -1]) 0 0).1 = -1 ∧
      (∀ more : List Int,
        runOps (runOps oneObjHeap 0 [1, -1, -1]) 0 more 0
          = some ⟨0, 0, true, false, 1⟩ ∧
        (internal_ao2_ref (runOps (runOps oneObjHeap 0 [1, -1, -1]) 0 more) 0 0).1
          = -1)) :=
  ⟨by decide,
   (C1_refcount_lifecycle oneObjHeap 0 0 [1, -1, -1] (by decide) (by decide)
      (by decide)).2.2⟩

/-- C2: when `adjust(handle, delta)` computes a new refcount strictly
below zero, it logs the logic error and then falls into exactly the same
destroy path as a zero result (`destroyedPObj`), so the outcome is the
one the zero case would produce; and because destruction zeroes the
magic, the destructor and the freeing/zeroing path cannot run a second
time for an object whose count already passed through zero: every
subsequent adjustment is rejected with -1 and leaves the heap (in
particular the destructor-invocation count) unchanged. -/
theorem C2_refcount_underflow (h : Heap) (oid : Nat) (o : PObj) (delta : Int)
    (hget : h oid = some o) (halive : o.alive = true)
    (hneg : o.ref + delta < 0) (hdelta : delta ≠ 0) :
    internal_ao2_ref h oid delta = (o.ref, hset h oid (destroyedPObj o)) ∧
    ((hset h oid (destroyedPObj o)) oid).map PObj.dtorRuns
      = some (o.dtorRuns + (if o.hasDtor then 1 else 0)) ∧
    (∀ delta' : Int,
      internal_ao2_ref (hset h oid (destroyedPObj o)) oid delta'
        = (-1, hset h oid (destroyedPObj o))) := by
  have hnotpos : ¬ 0 < o.ref + delta := by omega
  refine ⟨?_, ?_, ?_⟩
  · simp [internal_ao2_ref, hget, halive, hdelta, hnotpos]
  · simp [hset_self, destroyedPObj]
  · intro delta'
    exact ref_dead _ _ (destroyedPObj o) delta' (hset_self _ _ _) rfl

/-- Witness for C2: a fresh handle adjusted by -2 underflows to -1. -/
theorem C2_witness :
    (oneObjHeap 0 = some exObj ∧ exObj.alive = true ∧
      exObj.ref + (-2) < 0 ∧ (-2 : Int) ≠ 0) ∧
    (internal_ao2_ref oneObjHeap 0 (-2)
        = (exObj.ref, hset oneObjHeap 0 (destroyedPObj exObj)) ∧
      ((hset oneObjHeap 0 (destroyedPObj exObj)) 0).map PObj.dtorRuns
        = some (exObj.dtorRuns + (if exObj.hasDtor then 1 else 0)) ∧
      (∀ delta' : Int,
        internal_ao2_ref (hset oneObjHeap 0 (destroyedPObj exObj)) 0 delta'
          = (-1, hset oneObjHeap 0 (destroyedPObj exObj)))) :=
  ⟨⟨by decide, by decide, by decide, by decide⟩,
   C2_refcount_underflow oneObjHeap 0 exObj (-2) (by decide) (by decide)
     (by decide) (by decide)⟩

/-- C8: a hash container allocated without a hash function is forced to
a single bucket and the constant-zero hash function, i.e. it degenerates
to a single ordered list; and the list constructor is by definition the
hash constructor with one bucket and no hash function. -/
theorem C8_degenerate_list :
    (∀ (w : World) (ib : Bool) (dups : DupOpt) (n : Nat)
        (sortFn : Option (Int → Int → Int)) (cmpFn : Option CBCode)
        (cid : Nat) (w' : World),
      container_alloc_hash w ib dups n Option.none sortFn cmpFn = (some cid, w') →
      ∃ c : HashCont, w'.conts cid = some c ∧ c.n_buckets = 1 ∧
        c.buckets = [[]] ∧ (∀ k : Int, c.hashFn k = 0)) ∧
    (∀ (w : World) (ib : Bool) (dups : DupOpt)
        (sortFn : Option (Int → Int → Int)) (cmpFn : Option CBCode),
      container_alloc_list w ib dups sortFn cmpFn
        = container_alloc_hash w ib dups 1 Option.none sortFn cmpFn) := by
  constructor
  · intro w ib dups n sortFn cmpFn cid w' halloc
    by_cases hok : (popAlloc w.allocs).1
    · have hcall : container_alloc_hash w ib dups n Option.none sortFn cmpFn
          = (some w.nextCont,
             { w with
                conts := setCont w.conts w.nextCont
                  { insertBegin := ib
                    dups := dups
                    sortFn := sortFn
                    cmpFn := cmpFn
                    hashFn := hash_zero
                    n_buckets := 1
                    buckets := [[]]
                    elements := 0
                    destroying := false
                    ref := 1
                    alive := true }
                nextCont := w.nextCont + 1
                allocs := (popAlloc w.allocs).2 }) := by
        rw [container_alloc_hash]
        simp [hok, Option.getD]
      rw [hcall] at halloc
      simp only [Prod.mk.injEq, Option.some.injEq] at halloc
      obtain ⟨hcid, hw'⟩ := halloc
      refine ⟨{ insertBegin := ib
                dups := dups
                sortFn := sortFn
                cmpFn := cmpFn
                hashFn := hash_zero
                n_buckets := 1
                buckets := [[]]
                elements := 0
                destroying := false
                ref := 1
                alive := true },
              ?_, rfl, rfl, fun k => rfl⟩
      rw [← hw', ← hcid]
      exact setCont_self _ _ _
    · simp only [Bool.not_eq_true] at hok
      rw [container_alloc_hash] at halloc
      simp [hok] at halloc
  · intro w ib dups sortFn cmpFn
    rfl

/-- Evaluation of the keyed bucket order when the C remainder is
nonnegative: the scan starts at `|hash| % n`. -/
theorem callbackBucketOrder_nonneg (n : Nat) (desc wrap : Bool) (h : Int)
    (hn : 0 < n) (hge : 0 ≤ Int.tmod h (n : Int)) :
    (callbackBucketOrder n desc true wrap h).head? = some (h.natAbs % n) ∧
    h.natAbs % n ∈ callbackBucketOrder n desc true wrap h := by
  have hnotlt : ¬ Int.tmod h (n : Int) < 0 := not_lt.mpr hge
  have hs : (Int.tmod h (n : Int)).toNat = h.natAbs % n := tmod_toNat_eq h n hge
  have hlt : h.natAbs % n < n := Nat.mod_lt _ hn
  cases wrap with
  | false =>
    have heval : callbackBucketOrder n desc true false h = [h.natAbs % n] := by
      rw [callbackBucketOrder]
      simp [hnotlt, hs]
    rw [heval]
    simp
  | true =>
    cases desc with
    | false =>
      have heval : callbackBucketOrder n false true true h
          = List.map (fun j => (h.natAbs % n + j) % n) (List.range n) := by
        rw [callbackBucketOrder]
        simp [hnotlt, hs]
      rw [heval]
      constructor
      · rw [List.head?_map, head?_range n hn]
        simp [Nat.mod_eq_of_lt hlt]
      · exact List.mem_map.mpr ⟨0, List.mem_range.mpr hn,
          by simp [Nat.mod_eq_of_lt hlt]⟩
    | true =>
      have heval : callbackBucketOrder n true true true h
          = List.map (fun j => (h.natAbs % n + n - j) % n) (List.range n) := by
        rw [callbackBucketOrder]
        simp [hnotlt, hs]
      rw [heval]
      constructor
      · rw [List.head?_map, head?_range n hn]
        simp [Nat.add_mod_right, Nat.mod_eq_of_lt hlt]
      · exact List.mem_map.mpr ⟨0, List.mem_range.mpr hn,
          by simp [Nat.add_mod_right, Nat.mod_eq_of_lt hlt]⟩

/-- Evaluation of the keyed bucket order when the C remainder is
negative: the traversal falls into its `i < 0` branch and scans every
bucket from the first (or last) one. -/
theorem callbackBucketOrder_neg (n : Nat) (desc wrap : Bool) (h : Int)
    (hlt : Int.tmod h (n : Int) < 0) :
    callbackBucketOrder n desc true wrap h
      = (if desc then (List.range n).reverse else List.range n) := by
  rw [callbackBucketOrder]
  simp [hlt]

/-- C5 (counterexample to the claim as stated).  The claim asserts the
starting bucket of a keyed traversal equals the bucket link computes,
`|hash(arg)| mod n_buckets`, "including for hash functions that return
negative values".  With a hash function returning -3 on a 4-bucket
container, link folds `abs(-3) % 4 = 3`, but `hash_ao2_callback`
computes the C remainder `-3 % 4 = -3` with no `abs`, falls into its
`i < 0` branch, and starts the ascending traversal at bucket 0, not 3. -/
theorem C5_counterexample :
    linkBucketIndex negHashCont 0 = 3 ∧
    Int.tmod (negHashCont.hashFn 0) (negHashCont.n_buckets : Int) = -3 ∧
    (callbackBucketOrder negHashCont.n_buckets false true false
        (negHashCont.hashFn 0)).head? = some 0 ∧
    callbackBucketOrder negHashCont.n_buckets false true false
        (negHashCont.hashFn 0) = [0, 1, 2, 3] := by
  decide

/-- C5 (amended).  On a keyed (by-pointer or by-key) traversal, the
starting bucket equals the link folding `|hash(arg)| mod n_buckets`
whenever the C remainder `hash(arg) % n_buckets` is nonnegative — in
particular for every nonnegative hash value, so a linked object is
searched for in the bucket it was stored in.  When the remainder is
negative, the traversal instead degenerates to a full scan over all
buckets, which still includes the bucket link used. -/
theorem C5_hash_folding (c : HashCont) (k : Int) (desc wrap : Bool)
    (hn : 0 < c.n_buckets) :
    (0 ≤ Int.tmod (c.hashFn k) (c.n_buckets : Int) →
      (callbackBucketOrder c.n_buckets desc true wrap (c.hashFn k)).head?
        = some (linkBucketIndex c k)) ∧
    linkBucketIndex c k
      ∈ callbackBucketOrder c.n_buckets desc true wrap (c.hashFn k) := by
  have hidx : linkBucketIndex c k = (c.hashFn k).natAbs % c.n_buckets := rfl
  by_cases hr : Int.tmod (c.hashFn k) (c.n_buckets : Int) < 0
  · constructor
    · intro hge
      omega
    · rw [callbackBucketOrder_neg _ _ _ _ hr, hidx]
      have hm : (c.hashFn k).natAbs % c.n_buckets ∈ List.range c.n_buckets :=
        List.mem_range.mpr (Nat.mod_lt _ hn)
      cases desc <;> simp [hm]
  · have hge : 0 ≤ Int.tmod (c.hashFn k) (c.n_buckets : Int) := not_lt.mp hr
    have := callbackBucketOrder_nonneg c.n_buckets desc wrap (c.hashFn k) hn hge
    exact ⟨fun _ => by rw [hidx]; exact this.1, by rw [hidx]; exact this.2⟩

/-- Witness for C5: with the identity hash on 4 buckets and key 7 the
keyed traversal starts exactly at link's bucket `|7| % 4 = 3`. -/
theorem C5_witness :
    (0 < idHashCont.n_buckets ∧
      0 ≤ Int.tmod (idHashCont.hashFn 7) (idHashCont.n_buckets : Int)) ∧
    ((callbackBucketOrder idHashCont.n_buckets false true false
        (idHashCont.hashFn 7)).head? = some (linkBucketIndex idHashCont 7) ∧
      linkBucketIndex idHashCont 7
        ∈ callbackBucketOrder idHashCont.n_buckets false true false
            (idHashCont.hashFn 7)) :=
  ⟨⟨by decide, by decide⟩,
   ⟨(C5_hash_folding idHashCont 7 false false (by decide)).1 (by decide),
    (C5_hash_folding idHashCont 7 false false (by decide)).2⟩⟩

/-- Witness for C8: allocating with 7 requested buckets and no hash
function still yields one bucket and the zero hash. -/
theorem C8_witness :
    (container_alloc_hash emptyWorld false DupOpt.allow 7 Option.none
        Option.none Option.none
      = (some 0, (container_alloc_hash emptyWorld false DupOpt.allow 7
          Option.none Option.none Option.none).2)) ∧
    (∃ c : HashCont,
      (container_alloc_hash emptyWorld false DupOpt.allow 7 Option.none
          Option.none Option.none).2.conts 0 = some c ∧
      c.n_buckets = 1 ∧ c.buckets = [[]] ∧ (∀ k : Int, c.hashFn k = 0)) :=
  ⟨rfl,
   C8_degenerate_list.1 emptyWorld false DupOpt.allow 7 Option.none Option.none
     0 _ rfl⟩

/-- C9: in a container created without a sort function the duplicate
policy (here arbitrary in `c.dups`, covering REJECT, REJECT_SAME_OBJECT
and REPLACE) has no effect: `hash_ao2_link_insert` skips its comparison
walk entirely, so linking any valid object — even one whose key equals,
or which is identical to, an already stored object (the hypotheses place
no constraint on the bucket contents) — inserts a fresh node at the head
or tail per the insertion-order option, bumps the element count, and
returns 1. -/
theorem C9_no_sort_policy_ignored (w : World) (cid oid : Nat) (c : HashCont)
    (o : PObj)
    (hc : w.conts cid = some c) (hcal : c.alive = true)
    (hsort : c.sortFn = none)
    (ho : w.heap oid = some o) (hoal : o.alive = true)
    (hok : (popAlloc w.allocs).1 = true) :
    ao2_link w cid oid
      = (1,
         { w with
            heap := (internal_ao2_ref w.heap oid 1).2
            conts := setCont w.conts cid
              { c with
                  buckets := c.buckets.set
                    (linkBucketIndex c (keyOfW w oid))
                    (if c.insertBegin then
                      ⟨some oid⟩ ::
                        ((c.buckets.get? (linkBucketIndex c (keyOfW w oid))).getD [])
                    else
                      ((c.buckets.get? (linkBucketIndex c (keyOfW w oid))).getD [])
                        ++ [⟨some oid⟩])
                  elements := c.elements + 1 }
            allocs := (popAlloc w.allocs).2 }) :=
  link_no_sort w cid oid c o hc hcal hsort ho hoal hok

/-- Witness for C9: relinking the very object a REJECT-policy unsorted
container already stores still inserts a second node at the tail and
returns 1. -/
theorem C9_witness :
    ((c9World.conts 0).isSome ∧ (c9World.heap 0).isSome ∧
      (popAlloc c9World.allocs).1 = true) ∧
    (ao2_link c9World 0 0).1 = 1 ∧
    ((ao2_link c9World 0 0).2.conts 0).map HashCont.buckets
      = some [[⟨some 0⟩, ⟨some 0⟩]] ∧
    ((ao2_link c9World 0 0).2.conts 0).map HashCont.elements = some 2 := by
  have h := C9_no_sort_policy_ignored c9World 0 0
    ((c9World.conts 0).get (by decide)) ((c9World.heap 0).get (by decide))
    rfl rfl rfl rfl rfl rfl
  refine ⟨⟨by decide, by decide, by decide⟩, ?_, ?_, ?_⟩
  · rw [h]
  · rw [h]
    simp [setCont_self]
    decide
  · rw [h]
    simp [setCont_self]
    decide


/-- C10: when the container's stored lookup-match function is null,
`find` with default flags hands the NULL callback to the traversal,
which substitutes `cb_true` and so matches everything: for any key
argument it returns the first payload in traversal order (first held
node in bucket order) with its refcount bumped for the caller, rather
than null. -/
theorem C10_null_cmp_find (w : World) (cid : Nat) (c : HashCont) (arg : CArg)
    (oid0 : Nat)
    (hc : w.conts cid = some c) (hcal : c.alive = true)
    (hcmp : c.cmpFn = Option.none)
    (hlen : c.buckets.length = c.n_buckets)
    (hfirst : (c.buckets.flatten.filterMap Node.obj).head? = some oid0) :
    (ao2_find w cid arg SFlags.none).1 = some oid0 ∧
    (ao2_find w cid arg SFlags.none).2.heap
      = (internal_ao2_ref w.heap oid0 1).2 := by
  rw [ao2_find, hc]
  simp only
  rw [ao2_callback, hc]
  simp only [hcal, if_true]
  rw [hash_ao2_callback, hc]
  simp only [hcmp, SFlags.none, Bool.or_self, Option.getD_none,
    Bool.false_eq_true, if_false]
  have horder : callbackBucketOrder c.n_buckets false false false
      (c.hashFn (argKeyOf w arg)) = List.range c.n_buckets := by
    rw [callbackBucketOrder]
    simp
  have hflat : (((List.range c.n_buckets).map
      (fun i => (c.buckets.get? i).getD [])).flatten.filterMap Node.obj).head?
        = some oid0 := by
    rw [← hlen, map_range_getD]
    exact hfirst
  have htrav := traverseFirst_some
    ⟨cid, ⟨false, false, false, false, false, false, false⟩, CBCode.cbTrue,
      arg, Option.none, argKeyOf w arg⟩
    rfl rfl rfl (List.range c.n_buckets) oid0 ⟨w, Option.none, []⟩ c hc hflat
  rw [horder, htrav]
  exact ⟨rfl, rfl⟩

/-- Witness for C10: a find with an arbitrary key on a container with no
lookup-match function returns its only stored payload, refcount
bumped. -/
theorem C10_witness :
    ((c9World.conts 0).map HashCont.cmpFn = some Option.none ∧
      ((((c9World.conts 0).map HashCont.buckets).getD []).flatten.filterMap
        Node.obj).head? = some 0) ∧
    ((ao2_find c9World 0 (CArg.byKey 999) SFlags.none).1 = some 0 ∧
      (ao2_find c9World 0 (CArg.byKey 999) SFlags.none).2.heap
        = (internal_ao2_ref c9World.heap 0 1).2) :=
  ⟨⟨by decide, by decide⟩,
   C10_null_cmp_find c9World 0
     { insertBegin := false
       dups := DupOpt.reject
       sortFn := none
       cmpFn := none
       hashFn := hash_zero
       n_buckets := 1
       buckets := [[⟨some 0⟩]]
       elements := 1
       destroying := false
       ref := 1
       alive := true } (CArg.byKey 999) 0 rfl rfl rfl rfl (by decide)⟩


end AstObj2
